import Mathlib

/-!
# Text chart resource handler (`signalfx/text_chart.go`)

A shallow embedding of the text chart resource of the SignalFx Terraform
provider, and theorems about the JSON payload it builds and about the four
CRUD operations.

Modelling conventions.

* A Go `string` is its sequence of bytes (`GoString`); it need not be valid
  UTF-8. A string literal of the source is the UTF-8 encoding of its text
  (`lit`). A Go `error` is identified with its message, and a `nil` error is
  `none`.
* `schema.ResourceData`, `encoding/json`, `unicode/utf8` and `fmt` are
  libraries: the parts this file calls are modelled here from their documented
  behaviour, `json.Marshal` with its replacement of invalid UTF-8 by U+FFFD.
* The `[]byte` that `json.Marshal` returns is always valid UTF-8: it is held
  as the list of characters it encodes.
* The shared helpers `buildURL`, `buildAppURL`, `resourceCreate`,
  `resourceRead`, `resourceUpdate`, `resourceDelete` and the constants
  `CHART_API_PATH`, `CHART_APP_PATH` live elsewhere in the provider: they are
  parameters of the model (`Helpers`), arbitrary functions that may fail.
-/

namespace SignalFx

/-! ## Go strings and UTF-8 -/

/-- A byte. -/
abbrev Byte := Fin 256

/-- A Go `string`: a sequence of bytes. -/
abbrev GoString := List Byte

/-- The message of a Go `error`. -/
abbrev GoError := GoString

/-- The byte with the given value (below 256). -/
def byte (n : Nat) : Byte := ⟨n % 256, Nat.mod_lt n (by decide)⟩

/-- The UTF-8 encoding of a Unicode scalar value (`utf8.EncodeRune`). -/
def encodeRune (r : Nat) : GoString :=
  if r < 0x80 then [byte r]
  else if r < 0x800 then [byte (0xC0 + r / 64), byte (0x80 + r % 64)]
  else if r < 0x10000 then
    [byte (0xE0 + r / 4096), byte (0x80 + r / 64 % 64), byte (0x80 + r % 64)]
  else
    [byte (0xF0 + r / 262144), byte (0x80 + r / 4096 % 64), byte (0x80 + r / 64 % 64),
      byte (0x80 + r % 64)]

/-- The UTF-8 encoding of a text (`string(runes)`). -/
def encodeChars : List Char → GoString
  | [] => []
  | c :: cs => encodeRune c.toNat ++ encodeChars cs

/-- A string literal of the source: the UTF-8 encoding of its text. -/
def lit (s : String) : GoString := encodeChars s.data

/-- The least second byte `unicode/utf8` accepts after the first byte `s0`. -/
def acceptLo (s0 : Nat) : Nat :=
  if s0 = 0xE0 then 0xA0 else if s0 = 0xF0 then 0x90 else 0x80

/-- The greatest second byte `unicode/utf8` accepts after the first byte `s0`. -/
def acceptHi (s0 : Nat) : Nat :=
  if s0 = 0xED then 0x9F else if s0 = 0xF4 then 0x8F else 0xBF

/-- The function `utf8.DecodeRuneInString`: the first rune of the string and
the number of bytes it takes; `(0xFFFD, 1)` when the string does not start
with a valid encoding (an encoding cut short by the end of the string
included), `(0xFFFD, 0)` for the empty string. -/
def decodeRune (s : GoString) : Nat × Nat :=
  match s with
  | [] => (0xFFFD, 0)
  | s0 :: t =>
    if s0.val < 0x80 then (s0.val, 1)
    else if s0.val < 0xC2 ∨ 0xF4 < s0.val then (0xFFFD, 1)
    else
      match t with
      | [] => (0xFFFD, 1)
      | s1 :: t1 =>
        if s1.val < acceptLo s0.val ∨ acceptHi s0.val < s1.val then (0xFFFD, 1)
        else if s0.val < 0xE0 then (s0.val % 32 * 64 + s1.val % 64, 2)
        else
          match t1 with
          | [] => (0xFFFD, 1)
          | s2 :: t2 =>
            if s2.val < 0x80 ∨ 0xBF < s2.val then (0xFFFD, 1)
            else if s0.val < 0xF0 then
              (s0.val % 16 * 4096 + s1.val % 64 * 64 + s2.val % 64, 3)
            else
              match t2 with
              | [] => (0xFFFD, 1)
              | s3 :: _ =>
                if s3.val < 0x80 ∨ 0xBF < s3.val then (0xFFFD, 1)
                else
                  (s0.val % 8 * 262144 + s1.val % 64 * 4096 + s2.val % 64 * 64 + s3.val % 64, 4)

/-- The runes of a string (`[]rune(s)`), every byte that starts no valid
encoding read as U+FFFD; `skip` counts the bytes still to pass over because
they belong to the rune just read. -/
def runes : Nat → GoString → List Char
  | _, [] => []
  | skip + 1, _ :: rest => runes skip rest
  | 0, b :: rest =>
    Char.ofNat (decodeRune (b :: rest)).1 :: runes ((decodeRune (b :: rest)).2 - 1) rest

/-- The function `utf8.ValidString`, with the same `skip` counter: no position
where a rune starts holds an invalid encoding. -/
def validString : Nat → GoString → Bool
  | _, [] => true
  | skip + 1, _ :: rest => validString skip rest
  | 0, b :: rest =>
    !(decide ((decodeRune (b :: rest)).1 = 0xFFFD ∧ (decodeRune (b :: rest)).2 = 1)) &&
      validString ((decodeRune (b :: rest)).2 - 1) rest

/-- The string with every byte that starts no valid encoding replaced by the
encoding of U+FFFD (`string([]rune(s))`): what a JSON text can hold of it. -/
def coerceUTF8 (s : GoString) : GoString := encodeChars (runes 0 s)

/-! ## Go values and `json.Marshal` -/

/-- The dynamic values (`interface{}`) that are placed in a payload map:
strings, nested `map[string]interface{}` values, and values of a Go type that
`encoding/json` cannot encode (functions, channels, complex numbers). A map is
held as its list of entries in increasing key order, which is the order
`json.Marshal` emits them in. -/
inductive GoValue where
  | str (s : GoString)
  | map (entries : List (GoString × GoValue))
  | unsupported (goType : GoString)
  deriving Repr, Inhabited

/-- A Go `map[string]interface{}`: entries in increasing key order, one per key. -/
abbrev GoMap := List (GoString × GoValue)

/-- The result of `make(map[string]interface{})`. -/
def GoMap.make : GoMap := []

/-- The assignment `m[k] = v`: replaces the entry of `k` when there is one.
Keys are ordered as Go orders strings, byte by byte. -/
def GoMap.set : GoMap → GoString → GoValue → GoMap
  | [], k, v => [(k, v)]
  | (k', v') :: tl, k, v =>
    if k < k' then (k, v) :: (k', v') :: tl
    else if k = k' then (k, v) :: tl
    else (k', v') :: GoMap.set tl k v

/-- The builtin `len(m)`. -/
def GoMap.len (m : GoMap) : Nat := m.length

/-- The lower-case hexadecimal digit of a number below 16. -/
def hexDigit (n : Nat) : Char :=
  if n < 10 then Char.ofNat (48 + n) else Char.ofNat (87 + n)

/-- How `encoding/json` writes one character of a string (HTML escaping on, as
`json.Marshal` has it): the quote and the backslash get a backslash, newline,
carriage return and tab their letter, the other control characters and
`<`, `>`, `&` become `\u00XX`, U+2028 and U+2029 become `\u202X`, and every
other character is written as it is. (Later Go releases write backspace and
form feed as `\b` and `\f`; both spellings denote the same character.) -/
def escapeChar (c : Char) : List Char :=
  if c = '"' then ['\\', '"']
  else if c = '\\' then ['\\', '\\']
  else if c = '\n' then ['\\', 'n']
  else if c = '\r' then ['\\', 'r']
  else if c = '\t' then ['\\', 't']
  else if c.toNat < 0x20 ∨ c = '<' ∨ c = '>' ∨ c = '&' then
    ['\\', 'u', '0', '0', hexDigit (c.toNat / 16), hexDigit (c.toNat % 16)]
  else if c.toNat = 0x2028 ∨ c.toNat = 0x2029 then
    ['\\', 'u', '2', '0', '2', hexDigit (c.toNat % 16)]
  else [c]

/-- The body of the string literal `encoding/json` writes for a Go string, as
its loop over the bytes goes: a byte below 0x80 is written as its character,
escaped if need be; elsewhere the rune starting there is decoded, a byte that
starts no valid encoding is written `\ufffd`, and a valid rune is written as
it is (U+2028 and U+2029 escaped), its remaining bytes passed over. -/
def encodeString : Nat → GoString → List Char
  | _, [] => []
  | skip + 1, _ :: rest => encodeString skip rest
  | 0, b :: rest =>
    if b.val < 0x80 then escapeChar (Char.ofNat b.val) ++ encodeString 0 rest
    else if (decodeRune (b :: rest)).1 = 0xFFFD ∧ (decodeRune (b :: rest)).2 = 1 then
      ['\\', 'u', 'f', 'f', 'f', 'd'] ++ encodeString 0 rest
    else
      escapeChar (Char.ofNat (decodeRune (b :: rest)).1) ++
        encodeString ((decodeRune (b :: rest)).2 - 1) rest

/-- A Go string as a JSON string literal. -/
def quoteString (s : GoString) : List Char :=
  '"' :: (encodeString 0 s ++ ['"'])

mutual
/-- The text `json.Marshal` produces for a value, or its error. -/
def marshalValue : GoValue → Except GoError (List Char)
  | .str s => .ok (quoteString s)
  | .map es =>
    match marshalEntries es with
    | .ok body => .ok ('{' :: (body ++ ['}']))
    | .error e => .error e
  | .unsupported t => .error (lit "json: unsupported type: " ++ t)
/-- The members of an object, separated by commas. -/
def marshalEntries : List (GoString × GoValue) → Except GoError (List Char)
  | [] => .ok []
  | (k, v) :: es =>
    match marshalValue v with
    | .error e => .error e
    | .ok t =>
      match es with
      | [] => .ok (quoteString k ++ (':' :: t))
      | _ :: _ =>
        match marshalEntries es with
        | .error e => .error e
        | .ok r => .ok (quoteString k ++ (':' :: t) ++ (',' :: r))
end

/-- The call `json.Marshal(payload)` on a `map[string]interface{}`. -/
def json_Marshal (payload : GoMap) : Except GoError (List Char) :=
  marshalValue (.map payload)

/-! ## The configuration record -/

/-- The string attributes of the text chart schema (`textChartResource`). -/
inductive StrAttr where
  | url
  | name
  | description
  | markdown
  deriving DecidableEq, Repr

/-- The state of a `*schema.ResourceData` of the text chart resource: the
resource id and, per attribute of the schema, the value when one is set. -/
structure ResourceData where
  id : GoString
  synced : Option Bool
  last_updated : Option Int
  url : Option GoString
  name : Option GoString
  description : Option GoString
  markdown : Option GoString
  deriving DecidableEq, Repr

/-- The stored value of a string attribute, if any. -/
def ResourceData.raw (d : ResourceData) : StrAttr → Option GoString
  | .url => d.url
  | .name => d.name
  | .description => d.description
  | .markdown => d.markdown

/-- The method `d.Id()`. -/
def ResourceData.Id (d : ResourceData) : GoString := d.id

/-- The method `d.Get(key)` on a string attribute, with the type assertion
`.(string)` that the schema type makes succeed: the value, or the zero value
`""` when none is set. -/
def ResourceData.Get (d : ResourceData) (key : StrAttr) : GoString :=
  (d.raw key).getD []

/-- The method `d.GetOk(key)` on a string attribute: the value, and whether it
is set to something other than the zero value `""`. -/
def ResourceData.GetOk (d : ResourceData) (key : StrAttr) : GoString × Bool :=
  (d.Get key, (d.raw key).isSome && d.Get key != [])

/-- The method `d.Set(key, value)` on a string attribute. -/
def ResourceData.Set (d : ResourceData) (key : StrAttr) (value : GoString) : ResourceData :=
  match key with
  | .url => { d with url := some value }
  | .name => { d with name := some value }
  | .description => { d with description := some value }
  | .markdown => { d with markdown := some value }

/-! ## Payload construction -/

/-- The function `getTextChartOptions` of `text_chart.go`. -/
def getTextChartOptions (d : ResourceData) : GoMap :=
  let viz := GoMap.make
  let viz := viz.set (lit "type") (.str (lit "Text"))
  let viz :=
    if (d.GetOk .markdown).2 then viz.set (lit "markdown") (.str (d.GetOk .markdown).1) else viz
  viz

/-- The function `getPayloadTextChart` of `text_chart.go`. -/
def getPayloadTextChart (d : ResourceData) : Except GoError (List Char) :=
  let payload := (GoMap.make.set (lit "name") (.str (d.Get .name))).set (lit "description")
    (.str (d.Get .description))
  let viz := getTextChartOptions d
  let payload := if viz.len > 0 then payload.set (lit "options") (.map viz) else payload
  json_Marshal payload

/-! ## Reading the payload back: a decoder for JSON objects and strings -/

/-- The value of a hexadecimal digit. -/
def hexValue (c : Char) : Option Nat :=
  if 48 ≤ c.toNat ∧ c.toNat ≤ 57 then some (c.toNat - 48)
  else if 97 ≤ c.toNat ∧ c.toNat ≤ 102 then some (c.toNat - 87)
  else if 65 ≤ c.toNat ∧ c.toNat ≤ 70 then some (c.toNat - 55)
  else none

/-- The character a one-letter escape stands for (RFC 8259, section 7). -/
def unescapeLetter (e : Char) : Option Char :=
  if e = '"' then some '"'
  else if e = '\\' then some '\\'
  else if e = '/' then some '/'
  else if e = 'b' then some (Char.ofNat 8)
  else if e = 'f' then some (Char.ofNat 12)
  else if e = 'n' then some '\n'
  else if e = 'r' then some '\r'
  else if e = 't' then some '\t'
  else none

/-- Where the string scanner stands: in plain text, after a backslash, or
inside a `\uXXXX` escape with `left` more digits to read after the next one
and the value `acc` of the digits read so far. -/
inductive ScanState where
  | plain
  | escape
  | hex (left acc : Nat)
  deriving DecidableEq, Repr

/-- Puts a decoded character in front of the rest of the string. -/
def consChar (c : Char) (r : Option (List Char × List Char)) : Option (List Char × List Char) :=
  r.map (fun p => (c :: p.1, p.2))

/-- Reads a string literal after its opening quote, one character at a time:
the characters it denotes and the input after the closing quote. A raw
control character, an unknown escape, and a `\uXXXX` escape in the surrogate
range (which needs a second escape to make a character) are refused. -/
def scanString : ScanState → List Char → Option (List Char × List Char)
  | _, [] => none
  | .plain, c :: rest =>
    if c = '"' then some ([], rest)
    else if c = '\\' then scanString .escape rest
    else if c.toNat < 0x20 then none
    else consChar c (scanString .plain rest)
  | .escape, e :: rest =>
    if e = 'u' then scanString (.hex 3 0) rest
    else
      match unescapeLetter e with
      | some ch => consChar ch (scanString .plain rest)
      | none => none
  | .hex left acc, c :: rest =>
    match hexValue c with
    | none => none
    | some x =>
      match left with
      | 0 =>
        if 0xD800 ≤ acc * 16 + x ∧ acc * 16 + x ≤ 0xDFFF then none
        else consChar (Char.ofNat (acc * 16 + x)) (scanString .plain rest)
      | k + 1 => scanString (.hex k (acc * 16 + x)) rest

/-- Reads a string literal after its opening quote. -/
def parseStringBody (cs : List Char) : Option (List Char × List Char) :=
  scanString .plain cs

mutual
/-- Reads one JSON value, an object or a string, with `fuel` bounding the
number of values and members read. A string is returned as the Go string that
holds it, its UTF-8 encoding. -/
def parseValue : Nat → List Char → Option (GoValue × List Char)
  | 0, _ => none
  | fuel + 1, cs =>
    match cs with
    | [] => none
    | c :: rest =>
      if c = '"' then
        (parseStringBody rest).map (fun p => (GoValue.str (encodeChars p.1), p.2))
      else if c = '{' then
        if rest.head? = some '}' then some (.map [], rest.tail)
        else (parseMembers fuel rest).map (fun p => (GoValue.map p.1, p.2))
      else none
/-- Reads the members of a non-empty object up to its closing brace. -/
def parseMembers : Nat → List Char → Option (List (GoString × GoValue) × List Char)
  | 0, _ => none
  | fuel + 1, cs =>
    match cs with
    | [] => none
    | c :: rest =>
      if c = '"' then
        match parseStringBody rest with
        | none => none
        | some (k, r1) =>
          if r1.head? = some ':' then
            match parseValue fuel r1.tail with
            | none => none
            | some (v, r2) =>
              if r2.head? = some '}' then some ([(encodeChars k, v)], r2.tail)
              else if r2.head? = some ',' then
                (parseMembers fuel r2.tail).map (fun p => ((encodeChars k, v) :: p.1, p.2))
              else none
          else none
      else none
end

/-- Decodes a whole JSON text (an object or a string, without insignificant
white space, as `json.Marshal` writes it). -/
def jsonDecode (text : List Char) : Option GoValue :=
  match parseValue text.length text with
  | some (v, []) => some v
  | _ => none

/-- The member of an object with the given key. -/
def GoValue.member (v : GoValue) (key : GoString) : Option GoValue :=
  match v with
  | .map es => es.lookup key
  | _ => none

/-- The keys of an object, in the order of the text. -/
def GoValue.keys (v : GoValue) : List GoString :=
  match v with
  | .map es => es.map Prod.fst
  | _ => []

mutual
/-- The fuel that reading a value back takes. -/
def GoValue.size : GoValue → Nat
  | .str _ => 1
  | .map es => 1 + sizeEntries es
  | .unsupported _ => 1
/-- The fuel that reading the members of an object takes. -/
def sizeEntries : List (GoString × GoValue) → Nat
  | [] => 0
  | (_, v) :: es => 1 + v.size + sizeEntries es
end

mutual
/-- The value a JSON text can hold of a Go value: every string and key with
its invalid bytes replaced by U+FFFD. -/
def GoValue.coerce : GoValue → GoValue
  | .str s => .str (coerceUTF8 s)
  | .map es => .map (coerceEntries es)
  | .unsupported t => .unsupported t
/-- The entries of a map, coerced. -/
def coerceEntries : List (GoString × GoValue) → List (GoString × GoValue)
  | [] => []
  | (k, v) :: es => (coerceUTF8 k, v.coerce) :: coerceEntries es
end

mutual
/-- A JSON value with the members of every object put in key order (of a
repeated key the last member counts): two JSON values are equal, key order
insignificant, when their normal forms are. -/
def GoValue.canon : GoValue → GoValue
  | .str s => .str s
  | .map es => .map (canonEntries es)
  | .unsupported t => .unsupported t
/-- The members of an object in key order. -/
def canonEntries : List (GoString × GoValue) → GoMap
  | [] => []
  | (k, v) :: es =>
    if ((canonEntries es).lookup k).isSome then canonEntries es
    else (canonEntries es).set k v.canon
end

/-! ## The CRUD operations -/

/-- The fields of the provider configuration `signalfxConfig` (declared elsewhere
in the provider) that this file reads; their values are parameters. -/
structure signalfxConfig where
  APIURL : GoString
  AuthToken : GoString
  CustomAppURL : GoString
  deriving DecidableEq, Repr

/-- The shared helpers and constants of the provider that `text_chart.go`
uses and does not define. A helper that receives the record returns the
record as it leaves it, with its error (`none` for `nil`). -/
structure Helpers where
  CHART_API_PATH : GoString
  CHART_APP_PATH : GoString
  buildURL : GoString → GoString → Except GoError GoString
  buildAppURL : GoString → GoString → Except GoError GoString
  resourceCreate : GoString → GoString → List Char → ResourceData → ResourceData × Option GoError
  resourceRead : GoString → GoString → ResourceData → ResourceData × Option GoError
  resourceUpdate : GoString → GoString → List Char → ResourceData → ResourceData × Option GoError
  resourceDelete : GoString → GoString → ResourceData → ResourceData × Option GoError

/-- A call an operation makes, with its arguments: to a shared helper, or the
operation's own `d.Set`. -/
inductive Call where
  | buildURL (base path : GoString)
  | buildAppURL (base path : GoString)
  | resourceCreate (url token : GoString) (payload : List Char) (d : ResourceData)
  | resourceRead (url token : GoString) (d : ResourceData)
  | resourceUpdate (url token : GoString) (payload : List Char) (d : ResourceData)
  | resourceDelete (url token : GoString) (d : ResourceData)
  | Set (key : StrAttr) (value : GoString)
  deriving DecidableEq, Repr

/-- What one run of an operation leaves: the returned error, the record, and
the calls made, in order. -/
structure Outcome where
  err : Option GoError
  d : ResourceData
  calls : List Call
  deriving DecidableEq, Repr

/-- The function `textchartCreate` of `text_chart.go`. -/
def textchartCreate (h : Helpers) (config : signalfxConfig) (d : ResourceData) : Outcome :=
  match getPayloadTextChart d with
  | .error err => ⟨some (lit "Failed creating json payload: " ++ err), d, []⟩
  | .ok payload =>
    match h.buildURL config.APIURL h.CHART_API_PATH with
    | .error err =>
      ⟨some (lit "[SignalFx] Error constructing API URL: " ++ err), d,
        [.buildURL config.APIURL h.CHART_API_PATH]⟩
    | .ok url =>
      match h.resourceCreate url config.AuthToken payload d with
      | (d1, some err) =>
        ⟨some err, d1, [.buildURL config.APIURL h.CHART_API_PATH,
          .resourceCreate url config.AuthToken payload d]⟩
      | (d1, none) =>
        match h.buildAppURL config.CustomAppURL (h.CHART_APP_PATH ++ d1.Id) with
        | .error err =>
          ⟨some err, d1, [.buildURL config.APIURL h.CHART_API_PATH,
            .resourceCreate url config.AuthToken payload d,
            .buildAppURL config.CustomAppURL (h.CHART_APP_PATH ++ d1.Id)]⟩
        | .ok appURL =>
          ⟨none, d1.Set .url appURL, [.buildURL config.APIURL h.CHART_API_PATH,
            .resourceCreate url config.AuthToken payload d,
            .buildAppURL config.CustomAppURL (h.CHART_APP_PATH ++ d1.Id),
            .Set .url appURL]⟩

/-- The function `textchartRead` of `text_chart.go`. -/
def textchartRead (h : Helpers) (config : signalfxConfig) (d : ResourceData) : Outcome :=
  let path := h.CHART_API_PATH ++ lit "/" ++ d.Id
  match h.buildURL config.APIURL path with
  | .error err =>
    ⟨some (lit "[SignalFx] Error constructing API URL: " ++ err), d, [.buildURL config.APIURL path]⟩
  | .ok url =>
    let r := h.resourceRead url config.AuthToken d
    ⟨r.2, r.1, [.buildURL config.APIURL path, .resourceRead url config.AuthToken d]⟩

/-- The function `textchartUpdate` of `text_chart.go`. -/
def textchartUpdate (h : Helpers) (config : signalfxConfig) (d : ResourceData) : Outcome :=
  match getPayloadTextChart d with
  | .error err => ⟨some (lit "Failed creating json payload: " ++ err), d, []⟩
  | .ok payload =>
    let path := h.CHART_API_PATH ++ lit "/" ++ d.Id
    match h.buildURL config.APIURL path with
    | .error err =>
      ⟨some (lit "[SignalFx] Error constructing API URL: " ++ err), d, [.buildURL config.APIURL path]⟩
    | .ok url =>
      let r := h.resourceUpdate url config.AuthToken payload d
      ⟨r.2, r.1, [.buildURL config.APIURL path, .resourceUpdate url config.AuthToken payload d]⟩

/-- The function `textchartDelete` of `text_chart.go`. -/
def textchartDelete (h : Helpers) (config : signalfxConfig) (d : ResourceData) : Outcome :=
  let path := h.CHART_API_PATH ++ lit "/" ++ d.Id
  match h.buildURL config.APIURL path with
  | .error err =>
    ⟨some (lit "[SignalFx] Error constructing API URL: " ++ err), d, [.buildURL config.APIURL path]⟩
  | .ok url =>
    let r := h.resourceDelete url config.AuthToken d
    ⟨r.2, r.1, [.buildURL config.APIURL path, .resourceDelete url config.AuthToken d]⟩

/-- The four operations of the resource (`Create`, `Read`, `Update`, `Delete`
of `textChartResource`). -/
def operations : List (Helpers → signalfxConfig → ResourceData → Outcome) :=
  [textchartCreate, textchartRead, textchartUpdate, textchartDelete]

/-- The error a helper call returns, if it fails. -/
def Helpers.failure (h : Helpers) : Call → Option GoError
  | .buildURL base path =>
    match h.buildURL base path with
    | .error m => some m
    | .ok _ => none
  | .buildAppURL base path =>
    match h.buildAppURL base path with
    | .error m => some m
    | .ok _ => none
  | .resourceCreate url token payload d => (h.resourceCreate url token payload d).2
  | .resourceRead url token d => (h.resourceRead url token d).2
  | .resourceUpdate url token payload d => (h.resourceUpdate url token payload d).2
  | .resourceDelete url token d => (h.resourceDelete url token d).2
  | .Set _ _ => none

/-- Whether a call is a call of `buildURL`. -/
def Call.isBuildURL : Call → Bool
  | .buildURL _ _ => true
  | _ => false

/-- The failures underlying a run on record `d`: a failed payload
serialization, or a failed helper call of the run. -/
def UnderlyingFailure (h : Helpers) (d : ResourceData) (r : Outcome) (m : GoError) : Prop :=
  getPayloadTextChart d = .error m ∨ ∃ c ∈ r.calls, h.failure c = some m

/-- An error message that is another with a non-empty prefix in front. -/
def Prefixed (e m : GoError) : Prop :=
  ∃ pre : GoString, pre ≠ [] ∧ e = pre ++ m

/-! ## Example inputs -/

/-- The record of the example of the specification. -/
def sampleRecord : ResourceData :=
  { id := [], synced := some true, last_updated := none, url := none,
    name := some (lit "Sample"), description := some (lit "Desc"),
    markdown := some (lit "**bold**") }

/-- The same configuration in a record that differs in every other field. -/
def sampleRecordSynced : ResourceData :=
  { id := lit "c9", synced := some false, last_updated := some 7,
    url := some (lit "https://app.example/#/chart/c9"),
    name := some (lit "Sample"), description := some (lit "Desc"),
    markdown := some (lit "**bold**") }

/-- A record with a name and nothing else set. -/
def bareRecord : ResourceData :=
  { id := [], synced := none, last_updated := none, url := none,
    name := some (lit "Sample"), description := none, markdown := none }

/-- A record whose markdown is set to the empty string. -/
def emptyMarkdownRecord : ResourceData :=
  { id := lit "c1", synced := some true, last_updated := none, url := none,
    name := some (lit "Sample"), description := some (lit "Desc"), markdown := some [] }

/-- A record whose markdown is the three bytes `a`, 0xFF, `b`: the middle
byte is no valid UTF-8. -/
def invalidMarkdownRecord : ResourceData :=
  { id := [], synced := none, last_updated := none, url := none,
    name := some (lit "Sample"), description := some (lit "Desc"),
    markdown := some [0x61, 0xFF, 0x62] }

/-- A record whose name is the three bytes `a`, 0xFF, `b`. -/
def invalidNameRecord : ResourceData :=
  { id := [], synced := none, last_updated := none, url := none,
    name := some [0x61, 0xFF, 0x62], description := some (lit "Desc"),
    markdown := some (lit "**bold**") }

/-- The payload of the example of the specification, as the specification
writes it. -/
def specExamplePayload : List Char :=
  ("\x7b\"name\":\"Sample\",\"description\":\"Desc\"," ++
    "\"options\":\x7b\"markdown\":\"**bold**\",\"type\":\"Text\"\x7d\x7d").data

/-- The text `json.Marshal` writes for the record of the example. -/
def sampleMarshalled : List Char :=
  ("\x7b\"description\":\"Desc\",\"name\":\"Sample\"," ++
    "\"options\":\x7b\"markdown\":\"**bold**\",\"type\":\"Text\"\x7d\x7d").data

/-- The text `json.Marshal` writes for `invalidMarkdownRecord`. -/
def invalidMarkdownMarshalled : List Char :=
  ("\x7b\"description\":\"Desc\",\"name\":\"Sample\"," ++
    "\"options\":\x7b\"markdown\":\"a\\ufffdb\",\"type\":\"Text\"\x7d\x7d").data

/-- The text `json.Marshal` writes for `invalidNameRecord`. -/
def invalidNameMarshalled : List Char :=
  ("\x7b\"description\":\"Desc\",\"name\":\"a\\ufffdb\"," ++
    "\"options\":\x7b\"markdown\":\"**bold**\",\"type\":\"Text\"\x7d\x7d").data

/-- An example configuration. -/
def exampleConfig : signalfxConfig :=
  { APIURL := lit "https://api.example", AuthToken := lit "token",
    CustomAppURL := lit "https://app.example" }

/-- Helpers that all succeed: the remote creation gives the record the id `c1`. -/
def helpersOk : Helpers :=
  { CHART_API_PATH := lit "/v2/chart"
    CHART_APP_PATH := lit "/#/chart/"
    buildURL := fun base path => .ok (base ++ path)
    buildAppURL := fun base path => .ok (base ++ path)
    resourceCreate := fun _ _ _ d => ({ d with id := lit "c1" }, none)
    resourceRead := fun _ _ d => (d, none)
    resourceUpdate := fun _ _ _ d => (d, none)
    resourceDelete := fun _ _ d => ({ d with id := [] }, none) }

/-- Helpers whose remote calls all fail with the message `remote failure`. -/
def helpersRemoteDown : Helpers :=
  { helpersOk with
    resourceCreate := fun _ _ _ d => (d, some (lit "remote failure"))
    resourceRead := fun _ _ d => (d, some (lit "remote failure"))
    resourceUpdate := fun _ _ _ d => (d, some (lit "remote failure"))
    resourceDelete := fun _ _ d => (d, some (lit "remote failure")) }

/-- Helpers whose `buildURL` fails with the message `bad url`. -/
def helpersBadURL : Helpers :=
  { helpersOk with buildURL := fun _ _ => .error (lit "bad url") }


/-! ## UTF-8: a valid string is its own coercion -/

theorem toNat_ofNat (n : Nat) (h : n < 0xD800 ∨ (0xDFFF < n ∧ n < 0x110000)) :
    (Char.ofNat n).toNat = n := by
  have hv : n.isValidChar := h
  simp only [Char.ofNat, hv, dite_true, Char.toNat, Char.ofNatAux]
  rfl


theorem byte_val (b : Byte) : byte b.val = b := by
  apply Fin.ext
  simp only [byte]
  omega

theorem byte_eq (n : Nat) (b : Byte) (h : n % 256 = b.val) : byte n = b :=
  Fin.ext h

theorem acceptLo_cases (s0 : Nat) :
    (s0 = 0xE0 ∧ acceptLo s0 = 0xA0) ∨ (s0 = 0xF0 ∧ acceptLo s0 = 0x90) ∨
      (s0 ≠ 0xE0 ∧ s0 ≠ 0xF0 ∧ acceptLo s0 = 0x80) := by
  unfold acceptLo
  split_ifs <;> omega

theorem acceptHi_cases (s0 : Nat) :
    (s0 = 0xED ∧ acceptHi s0 = 0x9F) ∨ (s0 = 0xF4 ∧ acceptHi s0 = 0x8F) ∨
      (s0 ≠ 0xED ∧ s0 ≠ 0xF4 ∧ acceptHi s0 = 0xBF) := by
  unfold acceptHi
  split_ifs <;> omega

theorem decodeRune_valid (s : GoString) (hne : s ≠ [])
    (hv : ¬ ((decodeRune s).1 = 0xFFFD ∧ (decodeRune s).2 = 1)) :
    encodeRune (decodeRune s).1 = s.take (decodeRune s).2 ∧
    ((decodeRune s).1 < 0xD800 ∨ (0xDFFF < (decodeRune s).1 ∧ (decodeRune s).1 < 0x110000)) ∧
    1 ≤ (decodeRune s).2 := by
  cases s with
  | nil => exact absurd rfl hne
  | cons s0 t =>
    have h0 := s0.isLt
    by_cases c1 : s0.val < 0x80
    · have hd : decodeRune (s0 :: t) = (s0.val, 1) := by simp only [decodeRune, if_pos c1]
      rw [hd]
      refine ⟨?_, by left; show s0.val < 0xD800; omega, by show 1 ≤ 1; omega⟩
      show encodeRune s0.val = (s0 :: t).take 1
      simp only [encodeRune, if_pos c1, byte_val, List.take_succ_cons, List.take_zero]
    · by_cases c2 : s0.val < 0xC2 ∨ 0xF4 < s0.val
      · exact absurd (by simp only [decodeRune, if_neg c1, if_pos c2, and_self]) hv
      · cases t with
        | nil => exact absurd (by simp only [decodeRune, if_neg c1, if_neg c2, and_self]) hv
        | cons s1 t1 =>
          have h1 := s1.isLt
          have hlo := acceptLo_cases s0.val
          have hhi := acceptHi_cases s0.val
          by_cases c3 : s1.val < acceptLo s0.val ∨ acceptHi s0.val < s1.val
          · exact absurd (by simp only [decodeRune, if_neg c1, if_neg c2, if_pos c3, and_self]) hv
          · have hs1 : 0x80 ≤ s1.val ∧ s1.val ≤ 0xBF := by omega
            by_cases c4 : s0.val < 0xE0
            · have hd : decodeRune (s0 :: s1 :: t1) = (s0.val % 32 * 64 + s1.val % 64, 2) := by
                simp only [decodeRune, if_neg c1, if_neg c2, if_neg c3, if_pos c4]
              rw [hd]
              refine ⟨?_, by left; show s0.val % 32 * 64 + s1.val % 64 < 0xD800; omega,
                by show 1 ≤ 2; omega⟩
              show encodeRune (s0.val % 32 * 64 + s1.val % 64) = (s0 :: s1 :: t1).take 2
              have e1 : ¬ s0.val % 32 * 64 + s1.val % 64 < 0x80 := by omega
              have e2 : s0.val % 32 * 64 + s1.val % 64 < 0x800 := by omega
              simp only [encodeRune, if_neg e1, if_pos e2, List.take_succ_cons, List.take_zero]
              rw [byte_eq _ s0 (by omega), byte_eq _ s1 (by omega)]
            · cases t1 with
              | nil =>
                exact absurd (by simp only [decodeRune, if_neg c1, if_neg c2, if_neg c3,
                  if_neg c4, and_self]) hv
              | cons s2 t2 =>
                have h2 := s2.isLt
                by_cases c5 : s2.val < 0x80 ∨ 0xBF < s2.val
                · exact absurd (by simp only [decodeRune, if_neg c1, if_neg c2, if_neg c3,
                    if_neg c4, if_pos c5, and_self]) hv
                · by_cases c6 : s0.val < 0xF0
                  · have hd : decodeRune (s0 :: s1 :: s2 :: t2) =
                        (s0.val % 16 * 4096 + s1.val % 64 * 64 + s2.val % 64, 3) := by
                      simp only [decodeRune, if_neg c1, if_neg c2, if_neg c3, if_neg c4,
                        if_neg c5, if_pos c6]
                    rw [hd]
                    refine ⟨?_, ?_, by show 1 ≤ 3; omega⟩
                    · show encodeRune (s0.val % 16 * 4096 + s1.val % 64 * 64 + s2.val % 64) =
                        (s0 :: s1 :: s2 :: t2).take 3
                      have e1 : ¬ s0.val % 16 * 4096 + s1.val % 64 * 64 + s2.val % 64 < 0x80 := by
                        omega
                      have e2 : ¬ s0.val % 16 * 4096 + s1.val % 64 * 64 + s2.val % 64 < 0x800 := by
                        omega
                      have e3 : s0.val % 16 * 4096 + s1.val % 64 * 64 + s2.val % 64 < 0x10000 := by
                        omega
                      simp only [encodeRune, if_neg e1, if_neg e2, if_pos e3, List.take_succ_cons,
                        List.take_zero]
                      rw [byte_eq _ s0 (by omega), byte_eq _ s1 (by omega),
                        byte_eq _ s2 (by omega)]
                    · show s0.val % 16 * 4096 + s1.val % 64 * 64 + s2.val % 64 < 0xD800 ∨
                        (0xDFFF < s0.val % 16 * 4096 + s1.val % 64 * 64 + s2.val % 64 ∧
                          s0.val % 16 * 4096 + s1.val % 64 * 64 + s2.val % 64 < 0x110000)
                      omega
                  · cases t2 with
                    | nil =>
                      exact absurd (by simp only [decodeRune, if_neg c1, if_neg c2, if_neg c3,
                        if_neg c4, if_neg c5, if_neg c6, and_self]) hv
                    | cons s3 t3 =>
                      have h3 := s3.isLt
                      by_cases c7 : s3.val < 0x80 ∨ 0xBF < s3.val
                      · exact absurd (by simp only [decodeRune, if_neg c1, if_neg c2, if_neg c3,
                          if_neg c4, if_neg c5, if_neg c6, if_pos c7, and_self]) hv
                      · have hd : decodeRune (s0 :: s1 :: s2 :: s3 :: t3) =
                            (s0.val % 8 * 262144 + s1.val % 64 * 4096 + s2.val % 64 * 64 +
                              s3.val % 64, 4) := by
                          simp only [decodeRune, if_neg c1, if_neg c2, if_neg c3, if_neg c4,
                            if_neg c5, if_neg c6, if_neg c7]
                        rw [hd]
                        refine ⟨?_, ?_, by show 1 ≤ 4; omega⟩
                        · show encodeRune (s0.val % 8 * 262144 + s1.val % 64 * 4096 +
                              s2.val % 64 * 64 + s3.val % 64) =
                            (s0 :: s1 :: s2 :: s3 :: t3).take 4
                          have e1 : ¬ s0.val % 8 * 262144 + s1.val % 64 * 4096 +
                              s2.val % 64 * 64 + s3.val % 64 < 0x80 := by omega
                          have e2 : ¬ s0.val % 8 * 262144 + s1.val % 64 * 4096 +
                              s2.val % 64 * 64 + s3.val % 64 < 0x800 := by omega
                          have e3 : ¬ s0.val % 8 * 262144 + s1.val % 64 * 4096 +
                              s2.val % 64 * 64 + s3.val % 64 < 0x10000 := by omega
                          simp only [encodeRune, if_neg e1, if_neg e2, if_neg e3,
                            List.take_succ_cons, List.take_zero]
                          rw [byte_eq _ s0 (by omega), byte_eq _ s1 (by omega),
                            byte_eq _ s2 (by omega), byte_eq _ s3 (by omega)]
                        · show s0.val % 8 * 262144 + s1.val % 64 * 4096 + s2.val % 64 * 64 +
                              s3.val % 64 < 0xD800 ∨
                            (0xDFFF < s0.val % 8 * 262144 + s1.val % 64 * 4096 +
                                s2.val % 64 * 64 + s3.val % 64 ∧
                              s0.val % 8 * 262144 + s1.val % 64 * 4096 + s2.val % 64 * 64 +
                                s3.val % 64 < 0x110000)
                          omega

/-- Decoding a valid string into runes and encoding them again gives the
string back. -/
theorem encodeChars_runes (s : GoString) : ∀ (skip : Nat), validString skip s = true →
    encodeChars (runes skip s) = s.drop skip := by
  induction s with
  | nil => intro skip _; simp [runes, encodeChars]
  | cons b rest ih =>
    intro skip hv
    cases skip with
    | succ k =>
      simp only [runes, List.drop_succ_cons]
      exact ih k (by simpa only [validString] using hv)
    | zero =>
      simp only [validString, Bool.and_eq_true, Bool.not_eq_true', decide_eq_false_iff_not] at hv
      obtain ⟨hd, hrest⟩ := hv
      obtain ⟨henc, hvalid, hsize⟩ := decodeRune_valid (b :: rest) (by simp) hd
      simp only [runes, encodeChars, toNat_ofNat _ hvalid, henc, ih _ hrest, List.drop_zero]
      obtain ⟨n, hn⟩ : ∃ n, (decodeRune (b :: rest)).2 = n + 1 :=
        ⟨(decodeRune (b :: rest)).2 - 1, by omega⟩
      rw [hn]
      simp only [List.take_succ_cons, Nat.add_sub_cancel, List.cons_append, List.take_append_drop]

theorem coerceUTF8_of_valid (s : GoString) (h : validString 0 s = true) : coerceUTF8 s = s := by
  have := encodeChars_runes s 0 h
  simpa only [coerceUTF8, List.drop_zero] using this

/-! ## The payload map -/

theorem getTextChartOptions_set (d : ResourceData) (h : (d.GetOk .markdown).2 = true) :
    getTextChartOptions d = [(lit "markdown", .str (d.GetOk .markdown).1), (lit "type", .str (lit "Text"))] := by
  simp only [getTextChartOptions, GoMap.make, h, if_true]
  rfl

theorem getTextChartOptions_unset (d : ResourceData) (h : (d.GetOk .markdown).2 = false) :
    getTextChartOptions d = [(lit "type", .str (lit "Text"))] := by
  simp [getTextChartOptions, GoMap.set, GoMap.make, h]

theorem getTextChartOptions_len (d : ResourceData) : (getTextChartOptions d).len > 0 := by
  cases h : (d.GetOk .markdown).2
  · simp [getTextChartOptions_unset d h, GoMap.len]
  · simp [getTextChartOptions_set d h, GoMap.len]

/-- The value that `getPayloadTextChart` hands to `json.Marshal`. -/
theorem getPayloadTextChart_eq (d : ResourceData) :
    getPayloadTextChart d = json_Marshal [(lit "description", .str (d.Get .description)),
      (lit "name", .str (d.Get .name)), (lit "options", .map (getTextChartOptions d))] := by
  simp only [getPayloadTextChart, getTextChartOptions_len, GoMap.make, if_true]
  rfl

/-! ## The decoder reads back what `json.Marshal` writes -/

theorem hexValue_hexDigit (n : Nat) (h : n < 16) : hexValue (hexDigit n) = some n := by
  interval_cases n <;> rfl

theorem scanString_hex2 (n : Nat) (h : n < 256) (hs : ¬ (0xD800 ≤ n ∧ n ≤ 0xDFFF))
    (rest : List Char) :
    scanString (.hex 1 0) (hexDigit (n / 16) :: hexDigit (n % 16) :: rest) =
      consChar (Char.ofNat n) (scanString .plain rest) := by
  have h1 : n / 16 < 16 := by omega
  have h2 : n % 16 < 16 := by omega
  have h3 : (0 * 16 + n / 16) * 16 + n % 16 = n := by omega
  simp only [scanString, hexValue_hexDigit _ h1, hexValue_hexDigit _ h2, h3]
  rw [if_neg hs]

theorem scanString_escapeChar (c : Char) (rest : List Char) :
    scanString .plain (escapeChar c ++ rest) = consChar c (scanString .plain rest) := by
  unfold escapeChar
  split_ifs with h1 h2 h3 h4 h5 h6 h7
  · subst h1; rfl
  · subst h2; rfl
  · subst h3; rfl
  · subst h4; rfl
  · subst h5; rfl
  · have hn : c.toNat < 256 := by
      rcases h6 with h | h | h | h
      · omega
      · subst h; decide
      · subst h; decide
      · subst h; decide
    have hs : ¬ (0xD800 ≤ c.toNat ∧ c.toNat ≤ 0xDFFF) := by omega
    have key := scanString_hex2 c.toNat hn hs rest
    rw [Char.ofNat_toNat] at key
    rw [← key]
    rfl
  · have hc : c = Char.ofNat 0x2028 ∨ c = Char.ofNat 0x2029 := by
      rcases h7 with h | h
      · left; rw [← h, Char.ofNat_toNat]
      · right; rw [← h, Char.ofNat_toNat]
    rcases hc with h | h
    · subst h; rfl
    · subst h; rfl
  · have h8 : ¬ c.toNat < 0x20 := fun h => h6 (Or.inl h)
    simp only [List.singleton_append, scanString, if_neg h1, if_neg h2]
    rw [if_neg h8]
    rfl

theorem scanString_replacement (rest : List Char) :
    scanString .plain ('\\' :: 'u' :: 'f' :: 'f' :: 'f' :: 'd' :: rest) =
      consChar (Char.ofNat 0xFFFD) (scanString .plain rest) := by
  rfl

/-- Scanning the literal written for a Go string gives its runes. -/
theorem scanString_encodeString (s : GoString) : ∀ (skip : Nat) (rest : List Char),
    scanString .plain (encodeString skip s ++ '"' :: rest) = some (runes skip s, rest) := by
  induction s with
  | nil => intro skip rest; cases skip <;> rfl
  | cons b bs ih =>
    intro skip rest
    cases skip with
    | succ k => simp only [encodeString, runes]; exact ih k rest
    | zero =>
      simp only [encodeString, runes]
      split_ifs with h1 h2
      · have hd : (decodeRune (b :: bs)) = (b.val, 1) := by simp only [decodeRune, if_pos h1]
        rw [List.append_assoc, scanString_escapeChar, ih 0 rest, hd]
        rfl
      · rw [List.append_assoc]
        simp only [List.cons_append, List.nil_append]
        rw [scanString_replacement, ih 0 rest, h2.1, h2.2]
        rfl
      · rw [List.append_assoc, scanString_escapeChar, ih _ rest]
        rfl

theorem parseStringBody_quoteString (s : GoString) (rest : List Char) :
    parseStringBody (encodeString 0 s ++ '"' :: rest) = some (runes 0 s, rest) :=
  scanString_encodeString s 0 rest

theorem parseValue_quote (f : Nat) (s : GoString) (rest : List Char) :
    parseValue (f + 1) (quoteString s ++ rest) = some (.str (coerceUTF8 s), rest) := by
  have h := parseStringBody_quoteString s rest
  simp only [quoteString, List.cons_append, List.append_assoc, List.singleton_append,
    List.nil_append, parseValue, if_true, h, Option.map_some', coerceUTF8]

theorem parseMembers_step (f : Nat) (k : GoString) (tv tail : List Char) :
    parseMembers (f + 1) (quoteString k ++ (':' :: tv) ++ tail) =
      match parseValue f (tv ++ tail) with
      | none => none
      | some (v, r2) =>
        if r2.head? = some '}' then some ([(coerceUTF8 k, v)], r2.tail)
        else if r2.head? = some ',' then
          (parseMembers f r2.tail).map (fun p => ((coerceUTF8 k, v) :: p.1, p.2))
        else none := by
  have h := parseStringBody_quoteString k (':' :: (tv ++ tail))
  simp only [quoteString, List.cons_append, List.append_assoc, List.singleton_append,
    List.nil_append, parseMembers, if_true, h, List.head?_cons, List.tail_cons, coerceUTF8]

theorem marshalEntries_head (e : GoString × GoValue) (es : List (GoString × GoValue))
    (body : List Char) (h : marshalEntries (e :: es) = .ok body) :
    ∃ body1, body = '"' :: body1 := by
  obtain ⟨k, v⟩ := e
  rw [marshalEntries] at h
  cases hv : marshalValue v with
  | error err => simp [hv] at h
  | ok tv =>
    cases es with
    | nil =>
      simp only [hv, Except.ok.injEq] at h
      exact ⟨_, by rw [← h]; rfl⟩
    | cons e1 es1 =>
      cases hr : marshalEntries (e1 :: es1) with
      | error err => simp [hv, hr] at h
      | ok r =>
        simp only [hv, hr, Except.ok.injEq] at h
        exact ⟨_, by rw [← h]; rfl⟩

mutual
theorem parseValue_marshalValue : ∀ (v : GoValue) (t rest : List Char) (f : Nat),
    marshalValue v = .ok t → v.size ≤ f →
    parseValue f (t ++ rest) = some (v.coerce, rest)
  | .str s, t, rest, f, h, hf => by
    simp only [marshalValue, Except.ok.injEq] at h
    simp only [GoValue.size] at hf
    obtain ⟨f1, rfl⟩ : ∃ f1, f = f1 + 1 := ⟨f - 1, by omega⟩
    rw [← h]
    exact parseValue_quote f1 s rest
  | .unsupported g, t, rest, f, h, hf => by
    simp [marshalValue] at h
  | .map [], t, rest, f, h, hf => by
    simp only [marshalValue, marshalEntries, Except.ok.injEq] at h
    simp only [GoValue.size] at hf
    obtain ⟨f1, rfl⟩ : ∃ f1, f = f1 + 1 := ⟨f - 1, by omega⟩
    rw [← h]
    rfl
  | .map (e :: es), t, rest, f, h, hf => by
    simp only [GoValue.size] at hf
    obtain ⟨f1, rfl⟩ : ∃ f1, f = f1 + 1 := ⟨f - 1, by omega⟩
    rw [marshalValue] at h
    cases hb : marshalEntries (e :: es) with
    | error err => simp [hb] at h
    | ok body =>
      simp only [hb, Except.ok.injEq] at h
      obtain ⟨body1, hb1⟩ := marshalEntries_head e es body hb
      have ih := parseMembers_marshalEntries (e :: es) body rest f1 (by simp) hb (by omega)
      rw [← h]
      simp only [List.cons_append, List.append_assoc, List.singleton_append, List.nil_append,
        parseValue]
      rw [ih]
      subst hb1
      rfl
theorem parseMembers_marshalEntries : ∀ (es : List (GoString × GoValue)) (body rest : List Char)
    (f : Nat), es ≠ [] → marshalEntries es = .ok body → sizeEntries es ≤ f →
    parseMembers f (body ++ '}' :: rest) = some (coerceEntries es, rest)
  | [], _, _, _, hne, _, _ => absurd rfl hne
  | (k, v) :: es, body, rest, f, _, h, hf => by
    simp only [sizeEntries] at hf
    obtain ⟨f1, rfl⟩ : ∃ f1, f = f1 + 1 := ⟨f - 1, by omega⟩
    rw [marshalEntries] at h
    cases hv : marshalValue v with
    | error err => simp [hv] at h
    | ok tv =>
      cases es with
      | nil =>
        simp only [hv, Except.ok.injEq] at h
        have ihv := parseValue_marshalValue v tv ('}' :: rest) f1 hv (by omega)
        rw [← h, ← List.append_nil (quoteString k ++ ':' :: tv), List.append_assoc _ [] _,
          parseMembers_step]
        simp only [List.nil_append, ihv, List.head?_cons, List.tail_cons, if_true,
          coerceEntries]
      | cons e1 es1 =>
        cases hr : marshalEntries (e1 :: es1) with
        | error err => simp [hv, hr] at h
        | ok r =>
          simp only [hv, hr, Except.ok.injEq] at h
          have ihv := parseValue_marshalValue v tv (',' :: (r ++ '}' :: rest)) f1 hv (by omega)
          have ihr := parseMembers_marshalEntries (e1 :: es1) r rest f1 (by simp) hr (by omega)
          rw [← h, List.append_assoc, parseMembers_step]
          simp only [List.cons_append, ihv, List.head?_cons, List.tail_cons, ihr,
            Option.map_some']
          simp [coerceEntries]
end

mutual
theorem size_le_length : ∀ (v : GoValue) (t : List Char),
    marshalValue v = .ok t → v.size ≤ t.length
  | .str s, t, h => by
    simp only [marshalValue, Except.ok.injEq] at h
    rw [← h]
    simp [GoValue.size, quoteString]
  | .unsupported g, t, h => by
    simp [marshalValue] at h
  | .map es, t, h => by
    rw [marshalValue] at h
    cases hb : marshalEntries es with
    | error err => simp [hb] at h
    | ok body =>
      simp only [hb, Except.ok.injEq] at h
      have ih := sizeEntries_le_length es body hb
      rw [← h]
      simp only [GoValue.size, List.length_cons, List.length_append, List.length_nil]
      omega
theorem sizeEntries_le_length : ∀ (es : List (GoString × GoValue)) (body : List Char),
    marshalEntries es = .ok body → sizeEntries es ≤ body.length
  | [], _, _ => by simp [sizeEntries]
  | (k, v) :: es, body, h => by
    rw [marshalEntries] at h
    cases hv : marshalValue v with
    | error err => simp [hv] at h
    | ok tv =>
      have ihv := size_le_length v tv hv
      cases es with
      | nil =>
        simp only [hv, Except.ok.injEq] at h
        rw [← h]
        simp only [sizeEntries, quoteString, List.length_cons, List.length_append,
          List.length_nil]
        omega
      | cons e1 es1 =>
        cases hr : marshalEntries (e1 :: es1) with
        | error err => simp [hv, hr] at h
        | ok r =>
          simp only [hv, hr, Except.ok.injEq] at h
          have ihr := sizeEntries_le_length (e1 :: es1) r hr
          rw [← h]
          simp only [sizeEntries, quoteString, List.length_cons,
            List.length_append, List.length_nil] at ihr ⊢
          omega
end

/-- Decoding the text that `json.Marshal` produced for a value gives the value
back, with the invalid bytes of its strings replaced by U+FFFD. -/
theorem jsonDecode_marshalValue (v : GoValue) (t : List Char) (h : marshalValue v = .ok t) :
    jsonDecode t = some v.coerce := by
  have hp := parseValue_marshalValue v t [] t.length h (size_le_length v t h)
  rw [List.append_nil] at hp
  simp only [jsonDecode, hp]


/-! ## The decoded payload -/

theorem coerceEntries_options_set (d : ResourceData) (h : (d.GetOk .markdown).2 = true) :
    coerceEntries (getTextChartOptions d) =
      [(lit "markdown", .str (coerceUTF8 (d.GetOk .markdown).1)),
        (lit "type", .str (lit "Text"))] := by
  rw [getTextChartOptions_set d h]
  simp only [coerceEntries, GoValue.coerce]
  rfl

theorem coerceEntries_options_unset (d : ResourceData) (h : (d.GetOk .markdown).2 = false) :
    coerceEntries (getTextChartOptions d) = [(lit "type", .str (lit "Text"))] := by
  rw [getTextChartOptions_unset d h]
  rfl

/-- The payload is produced without error and decodes to an object with the
members `description`, `name` and `options`. -/
theorem getPayloadTextChart_decode (d : ResourceData) :
    ∃ text, getPayloadTextChart d = .ok text ∧
      jsonDecode text = some (.map [(lit "description", .str (coerceUTF8 (d.Get .description))),
        (lit "name", .str (coerceUTF8 (d.Get .name))),
        (lit "options", .map (coerceEntries (getTextChartOptions d)))]) := by
  have hm : ∃ text, marshalValue (.map [(lit "description", .str (d.Get .description)),
      (lit "name", .str (d.Get .name)), (lit "options", .map (getTextChartOptions d))]) =
      .ok text := by
    cases h : (d.GetOk .markdown).2
    · rw [getTextChartOptions_unset d h]
      simp only [marshalValue, marshalEntries]
      exact ⟨_, rfl⟩
    · rw [getTextChartOptions_set d h]
      simp only [marshalValue, marshalEntries]
      exact ⟨_, rfl⟩
  obtain ⟨text, ht⟩ := hm
  refine ⟨text, by rw [getPayloadTextChart_eq]; exact ht, ?_⟩
  rw [jsonDecode_marshalValue _ _ ht]
  simp only [GoValue.coerce, coerceEntries]
  rfl

theorem getPayloadTextChart_ok (d : ResourceData) : ∃ text, getPayloadTextChart d = .ok text := by
  obtain ⟨text, hok, _⟩ := getPayloadTextChart_decode d
  exact ⟨text, hok⟩

/-! ## The claims about the payload -/

/-- C1: for every configuration record, `getPayloadTextChart` succeeds and the
payload is a JSON object with an `options` member that is an object whose
`type` member is the string `Text`. -/
theorem C1_options_type_is_Text (d : ResourceData) :
    ∃ text v es, getPayloadTextChart d = .ok text ∧ jsonDecode text = some v ∧
      v.member (lit "options") = some (.map es) ∧
      (GoValue.map es).member (lit "type") = some (.str (lit "Text")) := by
  obtain ⟨text, hok, hdec⟩ := getPayloadTextChart_decode d
  refine ⟨text, _, coerceEntries (getTextChartOptions d), hok, hdec, rfl, ?_⟩
  cases h : (d.GetOk .markdown).2
  · rw [coerceEntries_options_unset d h]; rfl
  · rw [coerceEntries_options_set d h]; rfl

/-- C2, as the claim states it, fails: a markdown of the three bytes `a`,
0xFF, `b` is set, and `options.markdown` of the payload is `a`, U+FFFD, `b`,
not the value itself. -/
theorem C2_counterexample :
    invalidMarkdownRecord.GetOk .markdown = ([0x61, 0xFF, 0x62], true) ∧
    getPayloadTextChart invalidMarkdownRecord = .ok invalidMarkdownMarshalled ∧
    ∃ v opts, jsonDecode invalidMarkdownMarshalled = some v ∧
      v.member (lit "options") = some opts ∧
      opts.member (lit "markdown") = some (.str [0x61, 0xEF, 0xBF, 0xBD, 0x62]) ∧
      ([0x61, 0xEF, 0xBF, 0xBD, 0x62] : GoString) ≠ [0x61, 0xFF, 0x62] :=
  ⟨by decide, rfl, .map [(lit "description", .str (lit "Desc")), (lit "name", .str (lit "Sample")),
      (lit "options", .map [(lit "markdown", .str [0x61, 0xEF, 0xBF, 0xBD, 0x62]),
        (lit "type", .str (lit "Text"))])],
    .map [(lit "markdown", .str [0x61, 0xEF, 0xBF, 0xBD, 0x62]), (lit "type", .str (lit "Text"))],
    rfl, rfl, rfl, by decide⟩

/-- C2, amended: when `d.GetOk("markdown")` reports ok with value `s`, the
payload's `options.markdown` is `s` with every byte that is not part of a
valid UTF-8 encoding replaced by U+FFFD, as `json.Marshal` writes it; so it is
exactly `s`, unchanged, when `s` is valid UTF-8. -/
theorem C2_markdown_verbatim_when_valid (d : ResourceData) (s : GoString)
    (h : d.GetOk .markdown = (s, true)) :
    ∃ text v opts, getPayloadTextChart d = .ok text ∧ jsonDecode text = some v ∧
      v.member (lit "options") = some opts ∧
      opts.member (lit "markdown") = some (.str (coerceUTF8 s)) ∧
      (validString 0 s = true → opts.member (lit "markdown") = some (.str s)) := by
  obtain ⟨text, hok, hdec⟩ := getPayloadTextChart_decode d
  have h2 : (d.GetOk .markdown).2 = true := by rw [h]
  have h1 : (d.GetOk .markdown).1 = s := by rw [h]
  have hm : (GoValue.map (coerceEntries (getTextChartOptions d))).member (lit "markdown") =
      some (.str (coerceUTF8 s)) := by
    rw [coerceEntries_options_set d h2, h1]; rfl
  refine ⟨text, _, .map (coerceEntries (getTextChartOptions d)), hok, hdec, rfl, hm, ?_⟩
  intro hv
  rw [hm, coerceUTF8_of_valid s hv]

theorem C2_markdown_verbatim_when_valid_witness :
    sampleRecord.GetOk .markdown = (lit "**bold**", true) ∧
    validString 0 (lit "**bold**") = true ∧
    ∃ text v opts, getPayloadTextChart sampleRecord = .ok text ∧ jsonDecode text = some v ∧
      v.member (lit "options") = some opts ∧
      opts.member (lit "markdown") = some (.str (lit "**bold**")) := by
  obtain ⟨text, v, opts, h1, h2, h3, _, h5⟩ :=
    C2_markdown_verbatim_when_valid sampleRecord (lit "**bold**") (by decide)
  exact ⟨by decide, by decide, text, v, opts, h1, h2, h3, h5 (by decide)⟩

/-- C3, as the claim states it, fails: for a name of the three bytes `a`,
0xFF, `b` the payload's `name` member is `a`, U+FFFD, `b`, not the record's
name. -/
theorem C3_counterexample :
    invalidNameRecord.Get .name = [0x61, 0xFF, 0x62] ∧
    getPayloadTextChart invalidNameRecord = .ok invalidNameMarshalled ∧
    ∃ v, jsonDecode invalidNameMarshalled = some v ∧
      v.member (lit "name") = some (.str [0x61, 0xEF, 0xBF, 0xBD, 0x62]) ∧
      ([0x61, 0xEF, 0xBF, 0xBD, 0x62] : GoString) ≠ [0x61, 0xFF, 0x62] :=
  ⟨by decide, rfl, .map [(lit "description", .str (lit "Desc")),
      (lit "name", .str [0x61, 0xEF, 0xBF, 0xBD, 0x62]),
      (lit "options", .map [(lit "markdown", .str (lit "**bold**")),
        (lit "type", .str (lit "Text"))])],
    rfl, rfl, by decide⟩

/-- C3, amended: the payload is a JSON object whose `name` member is the
record's name and whose `description` member is the record's description (the
empty string when none is configured), each with every byte that is not part
of a valid UTF-8 encoding replaced by U+FFFD, so exactly the record's value
when that is valid UTF-8; and its keys are all among `name`, `description`
and `options`. -/
theorem C3_name_description_keys (d : ResourceData) :
    ∃ text es, getPayloadTextChart d = .ok text ∧ jsonDecode text = some (.map es) ∧
      (GoValue.map es).member (lit "name") = some (.str (coerceUTF8 (d.Get .name))) ∧
      (GoValue.map es).member (lit "description") =
        some (.str (coerceUTF8 (d.description.getD []))) ∧
      (validString 0 (d.Get .name) = true →
        (GoValue.map es).member (lit "name") = some (.str (d.Get .name))) ∧
      (validString 0 (d.description.getD []) = true →
        (GoValue.map es).member (lit "description") = some (.str (d.description.getD []))) ∧
      ∀ k ∈ (GoValue.map es).keys,
        k = lit "name" ∨ k = lit "description" ∨ k = lit "options" := by
  obtain ⟨text, hok, hdec⟩ := getPayloadTextChart_decode d
  refine ⟨text, _, hok, hdec, rfl, rfl, ?_, ?_, ?_⟩
  · intro hv
    exact congrArg (fun x => some (GoValue.str x)) (coerceUTF8_of_valid _ hv)
  · intro hv
    exact congrArg (fun x => some (GoValue.str x)) (coerceUTF8_of_valid _ hv)
  · intro k hk
    simp only [GoValue.keys, List.map_cons, List.map_nil, List.mem_cons, List.mem_singleton,
      List.not_mem_nil, or_false] at hk
    tauto

theorem C3_name_description_keys_witness :
    validString 0 (sampleRecord.Get .name) = true ∧
    validString 0 (bareRecord.description.getD []) = true ∧
    (∃ text es, getPayloadTextChart sampleRecord = .ok text ∧
      jsonDecode text = some (.map es) ∧
      (GoValue.map es).member (lit "name") = some (.str (lit "Sample"))) ∧
    ∃ text es, getPayloadTextChart bareRecord = .ok text ∧
      jsonDecode text = some (.map es) ∧
      (GoValue.map es).member (lit "description") = some (.str []) := by
  obtain ⟨t1, e1, a1, a2, _, _, a5, _, _⟩ := C3_name_description_keys sampleRecord
  obtain ⟨t2, e2, b1, b2, _, _, _, b6, _⟩ := C3_name_description_keys bareRecord
  exact ⟨by decide, by decide, ⟨t1, e1, a1, a2, a5 (by decide)⟩, ⟨t2, e2, b1, b2, b6 (by decide)⟩⟩

/-- C4: for name `Sample`, description `Desc`, markdown `**bold**`,
`getPayloadTextChart` returns without error a text that is, as a JSON value
(key order insignificant), the payload the specification writes: its keys are
exactly `name`, `description`, `options`, and the keys of `options` are
exactly `markdown`, `type`. -/
theorem C4_sample_payload :
    getPayloadTextChart sampleRecord = .ok sampleMarshalled ∧
    ∃ v w opts, jsonDecode sampleMarshalled = some v ∧
      jsonDecode specExamplePayload = some w ∧
      v.canon = w.canon ∧
      v.keys.Perm [lit "name", lit "description", lit "options"] ∧
      v.member (lit "name") = some (.str (lit "Sample")) ∧
      v.member (lit "description") = some (.str (lit "Desc")) ∧
      v.member (lit "options") = some opts ∧
      opts.keys.Perm [lit "markdown", lit "type"] ∧
      opts.member (lit "markdown") = some (.str (lit "**bold**")) ∧
      opts.member (lit "type") = some (.str (lit "Text")) := by
  refine ⟨rfl, .map [(lit "description", .str (lit "Desc")), (lit "name", .str (lit "Sample")),
      (lit "options", .map [(lit "markdown", .str (lit "**bold**")),
        (lit "type", .str (lit "Text"))])],
    .map [(lit "name", .str (lit "Sample")), (lit "description", .str (lit "Desc")),
      (lit "options", .map [(lit "markdown", .str (lit "**bold**")),
        (lit "type", .str (lit "Text"))])],
    .map [(lit "markdown", .str (lit "**bold**")), (lit "type", .str (lit "Text"))],
    rfl, rfl, rfl, ?_, rfl, rfl, rfl, ?_, rfl, rfl⟩
  · decide
  · decide

/-- C5, as the claim states it, fails: with no markdown value set the payload
still has an `options` key, holding the object with the one member `type`. -/
theorem C5_counterexample :
    (bareRecord.GetOk .markdown).2 = false ∧
    ∃ text v, getPayloadTextChart bareRecord = .ok text ∧ jsonDecode text = some v ∧
      v.member (lit "options") = some (.map [(lit "type", .str (lit "Text"))]) := by
  refine ⟨by decide, ?_⟩
  obtain ⟨text, hok, hdec⟩ := getPayloadTextChart_decode bareRecord
  exact ⟨text, _, hok, hdec, rfl⟩

/-- C5, amended: when no markdown value is set (`d.GetOk("markdown")` reports
not ok, which includes the empty string), the payload has an `options` key
whose value is the object with the single member `type` equal to `Text`, and
so no `markdown` member. -/
theorem C5_options_without_markdown (d : ResourceData) (h : (d.GetOk .markdown).2 = false) :
    ∃ text v opts, getPayloadTextChart d = .ok text ∧ jsonDecode text = some v ∧
      v.member (lit "options") = some opts ∧ opts = .map [(lit "type", .str (lit "Text"))] ∧
      opts.member (lit "markdown") = none := by
  obtain ⟨text, hok, hdec⟩ := getPayloadTextChart_decode d
  refine ⟨text, _, .map (coerceEntries (getTextChartOptions d)), hok, hdec, rfl, ?_, ?_⟩
  · rw [coerceEntries_options_unset d h]
  · rw [coerceEntries_options_unset d h]; rfl

theorem C5_options_without_markdown_witness :
    (emptyMarkdownRecord.GetOk .markdown).2 = false ∧
    ∃ text v opts, getPayloadTextChart emptyMarkdownRecord = .ok text ∧
      jsonDecode text = some v ∧ v.member (lit "options") = some opts ∧
      opts = .map [(lit "type", .str (lit "Text"))] ∧ opts.member (lit "markdown") = none :=
  ⟨by decide, C5_options_without_markdown emptyMarkdownRecord (by decide)⟩

/-- C6: `getPayloadTextChart` never returns an error, so `textchartCreate` and
`textchartUpdate` never take their `Failed creating json payload` branch: each
run goes on to the call of `buildURL`. -/
theorem C6_payload_never_fails (d : ResourceData) :
    (∃ text, getPayloadTextChart d = .ok text) ∧
    (∀ m, getPayloadTextChart d ≠ .error m) ∧
    ∀ (h : Helpers) (config : signalfxConfig),
      (textchartCreate h config d).calls.head? =
        some (.buildURL config.APIURL h.CHART_API_PATH) ∧
      (textchartUpdate h config d).calls.head? =
        some (.buildURL config.APIURL (h.CHART_API_PATH ++ lit "/" ++ d.Id)) := by
  obtain ⟨text, hok, _⟩ := getPayloadTextChart_decode d
  refine ⟨⟨text, hok⟩, ?_, ?_⟩
  · intro m hm
    rw [hok] at hm
    cases hm
  · intro h config
    constructor
    · simp only [textchartCreate, hok]
      cases h.buildURL config.APIURL h.CHART_API_PATH with
      | error err => rfl
      | ok url =>
        simp only
        rcases h.resourceCreate url config.AuthToken text d with ⟨d1, _ | err⟩
        · simp only
          cases h.buildAppURL config.CustomAppURL (h.CHART_APP_PATH ++ d1.Id) <;> rfl
        · rfl
    · simp only [textchartUpdate, hok]
      cases h.buildURL config.APIURL (h.CHART_API_PATH ++ lit "/" ++ d.Id) <;> rfl

/-! ## What each operation returns, from what the helpers return -/

/-- The error and the record `textchartCreate` returns once `buildURL` has
given the URL: those of the remote creation when it fails, the error of
`buildAppURL` with the record the creation left when that fails, and
otherwise no error and that record with `url` set. -/
theorem textchartCreate_ok (h : Helpers) (config : signalfxConfig) (d : ResourceData)
    (text : List Char) (url : GoString) (hp : getPayloadTextChart d = .ok text)
    (hb : h.buildURL config.APIURL h.CHART_API_PATH = .ok url) :
    (textchartCreate h config d).err =
      (match (h.resourceCreate url config.AuthToken text d).2 with
        | some m => some m
        | none =>
          match h.buildAppURL config.CustomAppURL
              (h.CHART_APP_PATH ++ (h.resourceCreate url config.AuthToken text d).1.Id) with
          | .error m => some m
          | .ok _ => none) ∧
    (textchartCreate h config d).d =
      (match (h.resourceCreate url config.AuthToken text d).2 with
        | some _ => (h.resourceCreate url config.AuthToken text d).1
        | none =>
          match h.buildAppURL config.CustomAppURL
              (h.CHART_APP_PATH ++ (h.resourceCreate url config.AuthToken text d).1.Id) with
          | .error _ => (h.resourceCreate url config.AuthToken text d).1
          | .ok v => (h.resourceCreate url config.AuthToken text d).1.Set .url v) := by
  simp only [textchartCreate, hp, hb]
  rcases hr : h.resourceCreate url config.AuthToken text d with ⟨d1, _ | m⟩
  · simp only
    cases ha : h.buildAppURL config.CustomAppURL (h.CHART_APP_PATH ++ d1.Id) with
    | error m => exact ⟨rfl, rfl⟩
    | ok v => exact ⟨rfl, rfl⟩
  · exact ⟨rfl, rfl⟩

/-! ## The claims about the CRUD operations -/

theorem not_prefixed_self (m : GoError) : ¬ Prefixed m m := by
  rintro ⟨pre, hne, he⟩
  exact hne (List.self_eq_append_left.mp he)

/-- C7, as the claim states it, fails: when the remote read fails with
`remote failure`, `textchartRead` returns that very message, with no prefix in
front of it. -/
theorem C7_counterexample :
    (textchartRead helpersRemoteDown exampleConfig sampleRecord).err = some (lit "remote failure") ∧
    ¬ ∃ m, UnderlyingFailure helpersRemoteDown sampleRecord
        (textchartRead helpersRemoteDown exampleConfig sampleRecord) m ∧
      Prefixed (lit "remote failure") m := by
  refine ⟨rfl, ?_⟩
  rintro ⟨m, hu, hp⟩
  have hm : m = lit "remote failure" := by
    rcases hu with hu | ⟨c, hc, hf⟩
    · obtain ⟨text, hok⟩ := getPayloadTextChart_ok sampleRecord
      rw [hok] at hu
      cases hu
    · have hcalls : (textchartRead helpersRemoteDown exampleConfig sampleRecord).calls =
          [.buildURL exampleConfig.APIURL (helpersRemoteDown.CHART_API_PATH ++ lit "/" ++
              sampleRecord.Id),
            .resourceRead (exampleConfig.APIURL ++ (helpersRemoteDown.CHART_API_PATH ++ lit "/" ++
              sampleRecord.Id)) exampleConfig.AuthToken sampleRecord] := rfl
      rw [hcalls] at hc
      simp only [List.mem_cons, List.mem_singleton, List.not_mem_nil, or_false] at hc
      rcases hc with rfl | rfl
      · simp [Helpers.failure, helpersRemoteDown, helpersOk] at hf
      · simp [Helpers.failure, helpersRemoteDown] at hf
        exact hf.symm
  subst hm
  exact not_prefixed_self _ hp

/-- C7, amended: whenever one of the four operations returns an error, it is
the message of a failed payload serialization behind the prefix
`Failed creating json payload: `, or the message of the failed `buildURL` call
behind the prefix `[SignalFx] Error constructing API URL: `, or the error of
the failed remote call (or of `buildAppURL`) itself, returned unchanged. -/
theorem C7_errors_prefixed_or_unchanged (h : Helpers) (config : signalfxConfig)
    (d : ResourceData) (op : Helpers → signalfxConfig → ResourceData → Outcome)
    (hop : op ∈ operations) (e : GoError) (herr : (op h config d).err = some e) :
    (∃ m, getPayloadTextChart d = .error m ∧ e = lit "Failed creating json payload: " ++ m) ∨
    (∃ base path m, Call.buildURL base path ∈ (op h config d).calls ∧
      h.buildURL base path = .error m ∧ e = lit "[SignalFx] Error constructing API URL: " ++ m) ∨
    (∃ c ∈ (op h config d).calls, c.isBuildURL = false ∧ h.failure c = some e) := by
  simp only [operations, List.mem_cons, List.mem_singleton, List.not_mem_nil, or_false] at hop
  rcases hop with rfl | rfl | rfl | rfl
  · -- textchartCreate
    obtain ⟨text, hok⟩ := getPayloadTextChart_ok d
    simp only [textchartCreate, hok] at herr ⊢
    cases hb : h.buildURL config.APIURL h.CHART_API_PATH with
    | error m =>
      simp only [hb, Option.some.injEq] at herr
      exact Or.inr (Or.inl ⟨_, _, m, by simp [hb], hb, herr.symm⟩)
    | ok url =>
      simp only [hb] at herr ⊢
      rcases hr : h.resourceCreate url config.AuthToken text d with ⟨d1, _ | m⟩
      · simp only [hr] at herr ⊢
        cases ha : h.buildAppURL config.CustomAppURL (h.CHART_APP_PATH ++ d1.Id) with
        | error m =>
          simp only [ha, Option.some.injEq] at herr
          refine Or.inr (Or.inr ⟨.buildAppURL config.CustomAppURL (h.CHART_APP_PATH ++ d1.Id),
            by simp [ha], rfl, ?_⟩)
          simp [Helpers.failure, ha, herr]
        | ok appURL => simp [ha] at herr
      · simp only [hr, Option.some.injEq] at herr
        refine Or.inr (Or.inr ⟨.resourceCreate url config.AuthToken text d, by simp [hr], rfl, ?_⟩)
        simp [Helpers.failure, hr, herr]
  · -- textchartRead
    simp only [textchartRead] at herr ⊢
    cases hb : h.buildURL config.APIURL (h.CHART_API_PATH ++ lit "/" ++ d.Id) with
    | error m =>
      simp only [hb, Option.some.injEq] at herr
      exact Or.inr (Or.inl ⟨_, _, m, by simp [hb], hb, herr.symm⟩)
    | ok url =>
      simp only [hb] at herr
      refine Or.inr (Or.inr ⟨.resourceRead url config.AuthToken d, by simp [hb], rfl, ?_⟩)
      simp [Helpers.failure, herr]
  · -- textchartUpdate
    obtain ⟨text, hok⟩ := getPayloadTextChart_ok d
    simp only [textchartUpdate, hok] at herr ⊢
    cases hb : h.buildURL config.APIURL (h.CHART_API_PATH ++ lit "/" ++ d.Id) with
    | error m =>
      simp only [hb, Option.some.injEq] at herr
      exact Or.inr (Or.inl ⟨_, _, m, by simp [hb], hb, herr.symm⟩)
    | ok url =>
      simp only [hb] at herr
      refine Or.inr (Or.inr ⟨.resourceUpdate url config.AuthToken text d, by simp [hb], rfl, ?_⟩)
      simp [Helpers.failure, herr]
  · -- textchartDelete
    simp only [textchartDelete] at herr ⊢
    cases hb : h.buildURL config.APIURL (h.CHART_API_PATH ++ lit "/" ++ d.Id) with
    | error m =>
      simp only [hb, Option.some.injEq] at herr
      exact Or.inr (Or.inl ⟨_, _, m, by simp [hb], hb, herr.symm⟩)
    | ok url =>
      simp only [hb] at herr
      refine Or.inr (Or.inr ⟨.resourceDelete url config.AuthToken d, by simp [hb], rfl, ?_⟩)
      simp [Helpers.failure, herr]

theorem C7_errors_prefixed_or_unchanged_witness :
    textchartDelete ∈ operations ∧
    (textchartDelete helpersBadURL exampleConfig sampleRecord).err =
      some (lit "[SignalFx] Error constructing API URL: bad url") ∧
    ((∃ m, getPayloadTextChart sampleRecord = .error m ∧
        lit "[SignalFx] Error constructing API URL: bad url" =
          lit "Failed creating json payload: " ++ m) ∨
      (∃ base path m,
        Call.buildURL base path ∈
          (textchartDelete helpersBadURL exampleConfig sampleRecord).calls ∧
        helpersBadURL.buildURL base path = .error m ∧
        lit "[SignalFx] Error constructing API URL: bad url" =
          lit "[SignalFx] Error constructing API URL: " ++ m) ∨
      (∃ c ∈ (textchartDelete helpersBadURL exampleConfig sampleRecord).calls,
        c.isBuildURL = false ∧
        helpersBadURL.failure c =
          some (lit "[SignalFx] Error constructing API URL: bad url"))) :=
  ⟨by simp [operations], rfl,
    C7_errors_prefixed_or_unchanged helpersBadURL exampleConfig sampleRecord textchartDelete
      (by simp [operations]) _ rfl⟩


/-- The calls of `textchartCreate`, from what the helpers return. -/
theorem textchartCreate_calls (h : Helpers) (config : signalfxConfig) (d : ResourceData)
    (text : List Char) (url : GoString) (hp : getPayloadTextChart d = .ok text)
    (hb : h.buildURL config.APIURL h.CHART_API_PATH = .ok url) :
    (textchartCreate h config d).calls =
      .buildURL config.APIURL h.CHART_API_PATH ::
      .resourceCreate url config.AuthToken text d ::
      (match (h.resourceCreate url config.AuthToken text d).2 with
        | some _ => []
        | none =>
          .buildAppURL config.CustomAppURL
              (h.CHART_APP_PATH ++ (h.resourceCreate url config.AuthToken text d).1.Id) ::
          (match h.buildAppURL config.CustomAppURL
              (h.CHART_APP_PATH ++ (h.resourceCreate url config.AuthToken text d).1.Id) with
            | .error _ => []
            | .ok v => [.Set .url v])) := by
  simp only [textchartCreate, hp, hb]
  rcases hr : h.resourceCreate url config.AuthToken text d with ⟨d1, _ | m⟩
  · simp only
    cases ha : h.buildAppURL config.CustomAppURL (h.CHART_APP_PATH ++ d1.Id) <;> rfl
  · rfl

/-- C8: `textchartCreate` writes `url` exactly when the remote creation and
then `buildAppURL` succeed, and what it writes is the result of
`buildAppURL(config.CustomAppURL, CHART_APP_PATH + id)` for the id the record
has after the remote creation; `url` is the only field it writes; and when
payload construction, API URL construction, the remote creation or
`buildAppURL` fails it returns an error and the record it returns is the one
it was given, or the one the remote creation left, with no write of its own. -/
theorem C8_create_writes_url (h : Helpers) (config : signalfxConfig) (d : ResourceData) :
    (∀ v, Call.Set .url v ∈ (textchartCreate h config d).calls ↔
      ∃ text url, getPayloadTextChart d = .ok text ∧
        h.buildURL config.APIURL h.CHART_API_PATH = .ok url ∧
        (h.resourceCreate url config.AuthToken text d).2 = none ∧
        h.buildAppURL config.CustomAppURL
          (h.CHART_APP_PATH ++ (h.resourceCreate url config.AuthToken text d).1.Id) = .ok v) ∧
    (∀ k v, Call.Set k v ∈ (textchartCreate h config d).calls →
      k = .url ∧ (textchartCreate h config d).err = none ∧
      (textchartCreate h config d).d.url = some v) ∧
    (((∃ m, getPayloadTextChart d = .error m) ∨
      (∃ m, h.buildURL config.APIURL h.CHART_API_PATH = .error m) ∨
      (∃ text url m, getPayloadTextChart d = .ok text ∧
        h.buildURL config.APIURL h.CHART_API_PATH = .ok url ∧
        (h.resourceCreate url config.AuthToken text d).2 = some m)) →
      (textchartCreate h config d).err ≠ none ∧
      ∀ k v, Call.Set k v ∉ (textchartCreate h config d).calls) ∧
    (∀ m, getPayloadTextChart d = .error m →
      (textchartCreate h config d).err = some (lit "Failed creating json payload: " ++ m) ∧
      (textchartCreate h config d).d = d) ∧
    (∀ m, h.buildURL config.APIURL h.CHART_API_PATH = .error m →
      (textchartCreate h config d).err =
        some (lit "[SignalFx] Error constructing API URL: " ++ m) ∧
      (textchartCreate h config d).d = d) ∧
    (∀ text url, getPayloadTextChart d = .ok text →
      h.buildURL config.APIURL h.CHART_API_PATH = .ok url →
      (∀ m, (h.resourceCreate url config.AuthToken text d).2 = some m →
        (textchartCreate h config d).err = some m ∧
        (textchartCreate h config d).d = (h.resourceCreate url config.AuthToken text d).1) ∧
      ((h.resourceCreate url config.AuthToken text d).2 = none →
        (∀ m, h.buildAppURL config.CustomAppURL
            (h.CHART_APP_PATH ++ (h.resourceCreate url config.AuthToken text d).1.Id) = .error m →
          (textchartCreate h config d).err = some m ∧
          (textchartCreate h config d).d = (h.resourceCreate url config.AuthToken text d).1) ∧
        (∀ v, h.buildAppURL config.CustomAppURL
            (h.CHART_APP_PATH ++ (h.resourceCreate url config.AuthToken text d).1.Id) = .ok v →
          (textchartCreate h config d).err = none ∧
          (textchartCreate h config d).d =
            (h.resourceCreate url config.AuthToken text d).1.Set .url v ∧
          (textchartCreate h config d).d.url = some v ∧
          (textchartCreate h config d).d.id =
            (h.resourceCreate url config.AuthToken text d).1.id))) := by
  obtain ⟨text, hok⟩ := getPayloadTextChart_ok d
  refine ⟨?_, ?_, ?_, ?_, ?_, ?_⟩
  · intro v
    cases hb : h.buildURL config.APIURL h.CHART_API_PATH with
    | error m => simp [textchartCreate, hok, hb]
    | ok url =>
      rw [textchartCreate_calls h config d text url hok hb]
      rcases hr : h.resourceCreate url config.AuthToken text d with ⟨d1, _ | m⟩
      · cases ha : h.buildAppURL config.CustomAppURL (h.CHART_APP_PATH ++ d1.Id) with
        | error m => simp [hok, hr, ha]
        | ok appURL =>
          simp only [List.mem_cons, List.mem_singleton, List.not_mem_nil, or_false,
            reduceCtorEq, false_or, Call.Set.injEq, true_and, hok, Except.ok.injEq]
          constructor
          · rintro rfl
            exact ⟨text, url, rfl, rfl, by rw [hr], by rw [hr]; exact ha⟩
          · rintro ⟨_, _, rfl, rfl, _, h2⟩
            rw [hr, ha] at h2
            exact (Except.ok.inj h2).symm
      · simp [hok, hr]
  · intro k v hk
    cases hb : h.buildURL config.APIURL h.CHART_API_PATH with
    | error m => simp [textchartCreate, hok, hb] at hk
    | ok url =>
      obtain ⟨he, hd⟩ := textchartCreate_ok h config d text url hok hb
      rw [textchartCreate_calls h config d text url hok hb] at hk
      rw [he, hd]
      rcases hr : h.resourceCreate url config.AuthToken text d with ⟨d1, _ | m⟩
      · rw [hr] at hk
        cases ha : h.buildAppURL config.CustomAppURL (h.CHART_APP_PATH ++ d1.Id) with
        | error m => simp [ha] at hk
        | ok appURL =>
          simp only [ha, List.mem_cons, List.mem_singleton, List.not_mem_nil, or_false,
            reduceCtorEq, false_or, Call.Set.injEq] at hk
          obtain ⟨rfl, rfl⟩ := hk
          simp [ResourceData.Set, ha]
      · rw [hr] at hk
        simp at hk
  · rintro (⟨m, hm⟩ | ⟨m, hm⟩ | ⟨text1, url, m, hp, hb, hr⟩)
    · rw [hok] at hm; cases hm
    · simp [textchartCreate, hok, hm]
    · obtain ⟨he, _⟩ := textchartCreate_ok h config d text1 url hp hb
      rw [he, textchartCreate_calls h config d text1 url hp hb, hr]
      simp
  · intro m hm
    rw [hok] at hm; cases hm
  · intro m hm
    simp only [textchartCreate, hok, hm, and_self]
  · intro text1 url hp hb
    simp only [textchartCreate, hp, hb]
    rcases hr : h.resourceCreate url config.AuthToken text1 d with ⟨d1, _ | e⟩
    · cases ha : h.buildAppURL config.CustomAppURL (h.CHART_APP_PATH ++ d1.Id) with
      | error m1 => simp [ha]
      | ok v1 => simp [ha, ResourceData.Set]
    · simp

theorem C8_create_writes_url_witness :
    (textchartCreate helpersOk exampleConfig sampleRecord).err = none ∧
    (textchartCreate helpersOk exampleConfig sampleRecord).d.url =
      some (lit "https://app.example/#/chart/c1") ∧
    (textchartCreate helpersRemoteDown exampleConfig sampleRecord).err =
      some (lit "remote failure") ∧
    (textchartCreate helpersRemoteDown exampleConfig sampleRecord).d = sampleRecord ∧
    (textchartCreate helpersBadURL exampleConfig sampleRecord).d = sampleRecord := by
  have hp : getPayloadTextChart sampleRecord = .ok sampleMarshalled := rfl
  have h1 := ((C8_create_writes_url helpersOk exampleConfig sampleRecord).2.2.2.2.2
    sampleMarshalled _ hp rfl).2 rfl
  have h2 := ((C8_create_writes_url helpersRemoteDown exampleConfig sampleRecord).2.2.2.2.2
    sampleMarshalled _ hp rfl).1 (lit "remote failure") rfl
  have h3 := (C8_create_writes_url helpersBadURL exampleConfig sampleRecord).2.2.2.2.1
    (lit "bad url") rfl
  have h4 := h1.2 (lit "https://app.example/#/chart/c1") rfl
  exact ⟨h4.1, h4.2.2.1, h2.1, h2.2, h3.2⟩

/-- The calls of each operation: one `buildURL` call with the path of the
operation, and the remote helper called exactly when `buildURL` succeeds. -/
theorem operations_calls (h : Helpers) (config : signalfxConfig) (d : ResourceData) :
    ((textchartCreate h config d).calls.filter Call.isBuildURL =
        [.buildURL config.APIURL h.CHART_API_PATH] ∧
      ∀ u t p a, Call.resourceCreate u t p a ∈ (textchartCreate h config d).calls ↔
        h.buildURL config.APIURL h.CHART_API_PATH = .ok u ∧ t = config.AuthToken ∧
        getPayloadTextChart d = .ok p ∧ a = d) ∧
    ((textchartRead h config d).calls.filter Call.isBuildURL =
        [.buildURL config.APIURL (h.CHART_API_PATH ++ lit "/" ++ d.Id)] ∧
      ∀ u t a, Call.resourceRead u t a ∈ (textchartRead h config d).calls ↔
        h.buildURL config.APIURL (h.CHART_API_PATH ++ lit "/" ++ d.Id) = .ok u ∧
        t = config.AuthToken ∧ a = d) ∧
    ((textchartUpdate h config d).calls.filter Call.isBuildURL =
        [.buildURL config.APIURL (h.CHART_API_PATH ++ lit "/" ++ d.Id)] ∧
      ∀ u t p a, Call.resourceUpdate u t p a ∈ (textchartUpdate h config d).calls ↔
        h.buildURL config.APIURL (h.CHART_API_PATH ++ lit "/" ++ d.Id) = .ok u ∧
        t = config.AuthToken ∧ getPayloadTextChart d = .ok p ∧ a = d) ∧
    ((textchartDelete h config d).calls.filter Call.isBuildURL =
        [.buildURL config.APIURL (h.CHART_API_PATH ++ lit "/" ++ d.Id)] ∧
      ∀ u t a, Call.resourceDelete u t a ∈ (textchartDelete h config d).calls ↔
        h.buildURL config.APIURL (h.CHART_API_PATH ++ lit "/" ++ d.Id) = .ok u ∧
        t = config.AuthToken ∧ a = d) := by
  obtain ⟨text, hok⟩ := getPayloadTextChart_ok d
  refine ⟨?_, ?_, ?_, ?_⟩
  · simp only [textchartCreate, hok]
    cases hb : h.buildURL config.APIURL h.CHART_API_PATH with
    | error m => simp [Call.isBuildURL]
    | ok url =>
      have hmem : ∀ (rest : List Call), (∀ u t p a, Call.resourceCreate u t p a ∉ rest) →
          ∀ u t p a, Call.resourceCreate u t p a ∈
            (Call.buildURL config.APIURL h.CHART_API_PATH ::
              Call.resourceCreate url config.AuthToken text d :: rest) ↔
            Except.ok url = (Except.ok u : Except GoError GoString) ∧ t = config.AuthToken ∧
              Except.ok text = (Except.ok p : Except GoError (List Char)) ∧ a = d := by
        intro rest hrest u t p a
        simp only [List.mem_cons, reduceCtorEq, false_or, Call.resourceCreate.injEq,
          Except.ok.injEq, hrest, or_false]
        constructor
        · rintro ⟨rfl, rfl, rfl, rfl⟩; exact ⟨rfl, rfl, rfl, rfl⟩
        · rintro ⟨rfl, rfl, rfl, rfl⟩; exact ⟨rfl, rfl, rfl, rfl⟩
      rcases hr : h.resourceCreate url config.AuthToken text d with ⟨d1, _ | m⟩
      · cases ha : h.buildAppURL config.CustomAppURL (h.CHART_APP_PATH ++ d1.Id) with
        | error m =>
          simp only [hr, ha]
          exact ⟨by simp [Call.isBuildURL], hmem _ (by simp)⟩
        | ok appURL =>
          simp only [hr, ha]
          exact ⟨by simp [Call.isBuildURL], hmem _ (by simp)⟩
      · simp only [hr]
        exact ⟨by simp [Call.isBuildURL], hmem _ (by simp)⟩
  · simp only [textchartRead]
    cases hb : h.buildURL config.APIURL (h.CHART_API_PATH ++ lit "/" ++ d.Id) with
    | error m => simp [Call.isBuildURL]
    | ok url =>
      simp only [List.filter, Call.isBuildURL, List.mem_cons, List.mem_singleton,
        List.not_mem_nil, reduceCtorEq, false_or, or_false, Call.resourceRead.injEq,
        Except.ok.injEq, true_and]
      intro u t a
      constructor
      · rintro ⟨rfl, rfl, rfl⟩; exact ⟨rfl, rfl, rfl⟩
      · rintro ⟨rfl, rfl, rfl⟩; exact ⟨rfl, rfl, rfl⟩
  · simp only [textchartUpdate, hok]
    cases hb : h.buildURL config.APIURL (h.CHART_API_PATH ++ lit "/" ++ d.Id) with
    | error m => simp [Call.isBuildURL]
    | ok url =>
      simp only [List.filter, Call.isBuildURL, List.mem_cons, List.mem_singleton,
        List.not_mem_nil, reduceCtorEq, false_or, or_false, Call.resourceUpdate.injEq,
        Except.ok.injEq, true_and]
      intro u t p a
      constructor
      · rintro ⟨rfl, rfl, rfl, rfl⟩; exact ⟨rfl, rfl, rfl, rfl⟩
      · rintro ⟨rfl, rfl, rfl, rfl⟩; exact ⟨rfl, rfl, rfl, rfl⟩
  · simp only [textchartDelete]
    cases hb : h.buildURL config.APIURL (h.CHART_API_PATH ++ lit "/" ++ d.Id) with
    | error m => simp [Call.isBuildURL]
    | ok url =>
      simp only [List.filter, Call.isBuildURL, List.mem_cons, List.mem_singleton,
        List.not_mem_nil, reduceCtorEq, false_or, or_false, Call.resourceDelete.injEq,
        Except.ok.injEq, true_and]
      intro u t a
      constructor
      · rintro ⟨rfl, rfl, rfl⟩; exact ⟨rfl, rfl, rfl⟩
      · rintro ⟨rfl, rfl, rfl⟩; exact ⟨rfl, rfl, rfl⟩


/-- C9: each operation calls `buildURL` once, with `config.APIURL` and the
path `CHART_API_PATH` (create) or `CHART_API_PATH ++ "/" ++ id` (read, update,
delete, `id` the record's current id); when `buildURL` succeeds the operation
applies the remote helper to the URL `buildURL` returned, the auth token, the
record and, for create and update, the output of `getPayloadTextChart` on
that record, and what the operation returns is what the helper returned (for
create, followed by the `url` step). -/
theorem C9_paths_urls_payloads (h : Helpers) (config : signalfxConfig) (d : ResourceData) :
    ((textchartCreate h config d).calls.filter Call.isBuildURL =
        [.buildURL config.APIURL h.CHART_API_PATH] ∧
      (∀ u t p a, Call.resourceCreate u t p a ∈ (textchartCreate h config d).calls ↔
        h.buildURL config.APIURL h.CHART_API_PATH = .ok u ∧ t = config.AuthToken ∧
        getPayloadTextChart d = .ok p ∧ a = d) ∧
      ∃ p, getPayloadTextChart d = .ok p ∧
        ∀ url, h.buildURL config.APIURL h.CHART_API_PATH = .ok url →
          (textchartCreate h config d).err =
            (match (h.resourceCreate url config.AuthToken p d).2 with
              | some m => some m
              | none =>
                match h.buildAppURL config.CustomAppURL
                    (h.CHART_APP_PATH ++ (h.resourceCreate url config.AuthToken p d).1.Id) with
                | .error m => some m
                | .ok _ => none) ∧
          (textchartCreate h config d).d =
            (match (h.resourceCreate url config.AuthToken p d).2 with
              | some _ => (h.resourceCreate url config.AuthToken p d).1
              | none =>
                match h.buildAppURL config.CustomAppURL
                    (h.CHART_APP_PATH ++ (h.resourceCreate url config.AuthToken p d).1.Id) with
                | .error _ => (h.resourceCreate url config.AuthToken p d).1
                | .ok v => (h.resourceCreate url config.AuthToken p d).1.Set .url v)) ∧
    ((textchartRead h config d).calls.filter Call.isBuildURL =
        [.buildURL config.APIURL (h.CHART_API_PATH ++ lit "/" ++ d.Id)] ∧
      (∀ u t a, Call.resourceRead u t a ∈ (textchartRead h config d).calls ↔
        h.buildURL config.APIURL (h.CHART_API_PATH ++ lit "/" ++ d.Id) = .ok u ∧
        t = config.AuthToken ∧ a = d) ∧
      ∀ url, h.buildURL config.APIURL (h.CHART_API_PATH ++ lit "/" ++ d.Id) = .ok url →
        (textchartRead h config d).err = (h.resourceRead url config.AuthToken d).2 ∧
        (textchartRead h config d).d = (h.resourceRead url config.AuthToken d).1) ∧
    ((textchartUpdate h config d).calls.filter Call.isBuildURL =
        [.buildURL config.APIURL (h.CHART_API_PATH ++ lit "/" ++ d.Id)] ∧
      (∀ u t p a, Call.resourceUpdate u t p a ∈ (textchartUpdate h config d).calls ↔
        h.buildURL config.APIURL (h.CHART_API_PATH ++ lit "/" ++ d.Id) = .ok u ∧
        t = config.AuthToken ∧ getPayloadTextChart d = .ok p ∧ a = d) ∧
      ∃ p, getPayloadTextChart d = .ok p ∧
        ∀ url, h.buildURL config.APIURL (h.CHART_API_PATH ++ lit "/" ++ d.Id) = .ok url →
          (textchartUpdate h config d).err = (h.resourceUpdate url config.AuthToken p d).2 ∧
          (textchartUpdate h config d).d = (h.resourceUpdate url config.AuthToken p d).1) ∧
    ((textchartDelete h config d).calls.filter Call.isBuildURL =
        [.buildURL config.APIURL (h.CHART_API_PATH ++ lit "/" ++ d.Id)] ∧
      (∀ u t a, Call.resourceDelete u t a ∈ (textchartDelete h config d).calls ↔
        h.buildURL config.APIURL (h.CHART_API_PATH ++ lit "/" ++ d.Id) = .ok u ∧
        t = config.AuthToken ∧ a = d) ∧
      ∀ url, h.buildURL config.APIURL (h.CHART_API_PATH ++ lit "/" ++ d.Id) = .ok url →
        (textchartDelete h config d).err = (h.resourceDelete url config.AuthToken d).2 ∧
        (textchartDelete h config d).d = (h.resourceDelete url config.AuthToken d).1) := by
  obtain ⟨text, hok⟩ := getPayloadTextChart_ok d
  obtain ⟨hc, hr, hu, hd⟩ := operations_calls h config d
  refine ⟨⟨hc.1, hc.2, text, hok, fun url hb => ?_⟩, ⟨hr.1, hr.2, fun url hb => ?_⟩,
    ⟨hu.1, hu.2, text, hok, fun url hb => ?_⟩, ⟨hd.1, hd.2, fun url hb => ?_⟩⟩
  · simp only [textchartCreate, hok, hb]
    rcases hrc : h.resourceCreate url config.AuthToken text d with ⟨d1, _ | m⟩
    · simp only
      cases ha : h.buildAppURL config.CustomAppURL (h.CHART_APP_PATH ++ d1.Id) <;>
        exact ⟨rfl, rfl⟩
    · exact ⟨rfl, rfl⟩
  · simp only [textchartRead, hb, and_self]
  · simp only [textchartUpdate, hok, hb, and_self]
  · simp only [textchartDelete, hb, and_self]

theorem C9_paths_urls_payloads_witness :
    (textchartDelete helpersOk exampleConfig emptyMarkdownRecord).d.id = [] ∧
    (textchartDelete helpersRemoteDown exampleConfig emptyMarkdownRecord).err =
      some (lit "remote failure") ∧
    (textchartRead helpersRemoteDown exampleConfig emptyMarkdownRecord).err =
      some (lit "remote failure") :=
  ⟨congrArg ResourceData.id
      ((C9_paths_urls_payloads helpersOk exampleConfig emptyMarkdownRecord).2.2.2.2.2
        _ rfl).2,
    ((C9_paths_urls_payloads helpersRemoteDown exampleConfig emptyMarkdownRecord).2.2.2.2.2
      _ rfl).1,
    ((C9_paths_urls_payloads helpersRemoteDown exampleConfig emptyMarkdownRecord).2.1.2.2
      _ rfl).1⟩

/-- Two records with the same configuration get the same payload, and the
bodies in the calls of create and update are the same. -/
theorem payload_congr (d1 d2 : ResourceData)
    (hn : d1.Get .name = d2.Get .name) (hd : d1.Get .description = d2.Get .description)
    (hm : d1.GetOk .markdown = d2.GetOk .markdown) :
    getPayloadTextChart d1 = getPayloadTextChart d2 ∧
    ∀ (h : Helpers) (config : signalfxConfig) (u t u' t' : GoString) (p p' : List Char)
      (a b : ResourceData),
      Call.resourceCreate u t p a ∈ (textchartCreate h config d1).calls →
      Call.resourceUpdate u' t' p' b ∈ (textchartUpdate h config d2).calls → p = p' := by
  have hopts : getTextChartOptions d1 = getTextChartOptions d2 := by
    simp only [getTextChartOptions, hm]
  have heq : getPayloadTextChart d1 = getPayloadTextChart d2 := by
    simp only [getPayloadTextChart, hn, hd, hopts]
  refine ⟨heq, ?_⟩
  intro h config u t u' t' p p' a b hc hu
  obtain ⟨text, hok, _⟩ := getPayloadTextChart_decode d1
  have hok2 : getPayloadTextChart d2 = .ok text := by rw [← heq]; exact hok
  have hp : p = text := by
    simp only [textchartCreate, hok] at hc
    cases hb : h.buildURL config.APIURL h.CHART_API_PATH with
    | error err => simp [hb] at hc
    | ok url =>
      simp only [hb] at hc
      rcases hr : h.resourceCreate url config.AuthToken text d1 with ⟨r1, _ | err⟩
      · simp only [hr] at hc
        cases ha : h.buildAppURL config.CustomAppURL (h.CHART_APP_PATH ++ r1.Id) with
        | error err => simp [ha] at hc; exact hc.2.2.1
        | ok appURL => simp [ha] at hc; exact hc.2.2.1
      · simp [hr] at hc; exact hc.2.2.1
  have hp' : p' = text := by
    simp only [textchartUpdate, hok2] at hu
    cases hb : h.buildURL config.APIURL (h.CHART_API_PATH ++ lit "/" ++ d2.Id) with
    | error err =>
      simp only [hb] at hu
      simp at hu
    | ok url =>
      simp only [hb] at hu
      simp only [List.mem_cons, reduceCtorEq, false_or, Call.resourceUpdate.injEq,
        List.mem_singleton, List.not_mem_nil, or_false] at hu
      exact hu.2.2.1
  rw [hp, hp']

/-- C10: two records that agree on name, description and on whether and to
what markdown is set get the same payload `p`, whatever their id and their
`synced`, `last_updated` and `url` fields are; and `p` is the body that
`textchartCreate` hands to `resourceCreate` for the one and that
`textchartUpdate` hands to `resourceUpdate` for the other: what each
operation returns is what the helper returns on that body. -/
theorem C10_payload_depends_on_three_fields (d1 d2 : ResourceData)
    (hn : d1.Get .name = d2.Get .name) (hd : d1.Get .description = d2.Get .description)
    (hm : d1.GetOk .markdown = d2.GetOk .markdown) :
    getPayloadTextChart d1 = getPayloadTextChart d2 ∧
    (∀ (h : Helpers) (config : signalfxConfig) (u t u' t' : GoString) (p p' : List Char)
      (a b : ResourceData),
      Call.resourceCreate u t p a ∈ (textchartCreate h config d1).calls →
      Call.resourceUpdate u' t' p' b ∈ (textchartUpdate h config d2).calls → p = p') ∧
    ∃ p, getPayloadTextChart d1 = .ok p ∧ getPayloadTextChart d2 = .ok p ∧
      (∀ (h : Helpers) (config : signalfxConfig) (url : GoString),
        h.buildURL config.APIURL h.CHART_API_PATH = .ok url →
        (textchartCreate h config d1).err =
          (match (h.resourceCreate url config.AuthToken p d1).2 with
            | some m => some m
            | none =>
              match h.buildAppURL config.CustomAppURL
                  (h.CHART_APP_PATH ++ (h.resourceCreate url config.AuthToken p d1).1.Id) with
              | .error m => some m
              | .ok _ => none) ∧
        (textchartCreate h config d1).d =
          (match (h.resourceCreate url config.AuthToken p d1).2 with
            | some _ => (h.resourceCreate url config.AuthToken p d1).1
            | none =>
              match h.buildAppURL config.CustomAppURL
                  (h.CHART_APP_PATH ++ (h.resourceCreate url config.AuthToken p d1).1.Id) with
              | .error _ => (h.resourceCreate url config.AuthToken p d1).1
              | .ok v => (h.resourceCreate url config.AuthToken p d1).1.Set .url v)) ∧
      (∀ (h : Helpers) (config : signalfxConfig) (url : GoString),
        h.buildURL config.APIURL (h.CHART_API_PATH ++ lit "/" ++ d2.Id) = .ok url →
        (textchartUpdate h config d2).err = (h.resourceUpdate url config.AuthToken p d2).2 ∧
        (textchartUpdate h config d2).d = (h.resourceUpdate url config.AuthToken p d2).1) := by
  obtain ⟨heq, hlog⟩ := payload_congr d1 d2 hn hd hm
  obtain ⟨text, hok⟩ := getPayloadTextChart_ok d1
  have hok2 : getPayloadTextChart d2 = .ok text := by rw [← heq]; exact hok
  refine ⟨heq, hlog, text, hok, hok2, fun h config url hb => ?_, fun h config url hb => ?_⟩
  · simp only [textchartCreate, hok, hb]
    rcases hrc : h.resourceCreate url config.AuthToken text d1 with ⟨r1, _ | m⟩
    · simp only
      cases ha : h.buildAppURL config.CustomAppURL (h.CHART_APP_PATH ++ r1.Id) <;>
        exact ⟨rfl, rfl⟩
    · exact ⟨rfl, rfl⟩
  · simp only [textchartUpdate, hok2, hb, and_self]

theorem C10_payload_depends_on_three_fields_witness :
    getPayloadTextChart sampleRecord = getPayloadTextChart sampleRecordSynced ∧
    (textchartUpdate helpersRemoteDown exampleConfig sampleRecordSynced).err =
      (helpersRemoteDown.resourceUpdate (lit "https://api.example/v2/chart/c9") (lit "token")
        sampleMarshalled sampleRecordSynced).2 := by
  obtain ⟨h1, _, p, hp1, _, _, hu⟩ :=
    C10_payload_depends_on_three_fields sampleRecord sampleRecordSynced rfl rfl rfl
  have hp : p = sampleMarshalled := by
    have : getPayloadTextChart sampleRecord = .ok sampleMarshalled := rfl
    rw [this] at hp1
    exact (Except.ok.inj hp1).symm
  subst hp
  exact ⟨h1, (hu helpersRemoteDown exampleConfig _ rfl).1⟩

end SignalFx
